import Mathlib

/-!
# Verification of the daily-diary photo-memory-to-video pipeline

A shallow embedding of the core modules of the repository
(`photo_memory_storage.py`, `storyboard.py`, `caption_generator.py`,
`frame_creator.py`, `video_generator.py`) together with proofs of the
specified properties.

Modelling conventions:
* Python dicts are insertion-ordered association lists with dict-assignment
  semantics (`dictInsert` replaces the value when the key is present,
  otherwise appends); `len(dict)` is the list length.
* PIL images are opaque identifiers (`Nat`); the SHA-256-over-PNG-bytes
  digest of `_calculate_image_hash` is an uninterpreted deterministic
  function `hashFn : Nat → Nat` over which theorems quantify.
* Python float literals that occur in the code (scene durations, all of the
  form `2.5`) are modelled exactly as rationals.
* Calls to external services (the vision model, PIL rendering, FFmpeg, S3)
  are modelled by explicit outcome parameters; everything the repository
  computes itself is embedded directly.
-/

/-! ### Python string primitives

The Python `str` methods used by the sources are embedded as structural
recursions over the character list of the string (`String.data`), so that
every definition evaluates inside the kernel.  Semantics follow CPython:
`strip` removes surrounding whitespace, `lower`/`upper` act per character,
`split(sep)` with a one-character separator cuts at every occurrence,
`replace` substitutes left to right without overlap, slicing is by code
point. -/

/-- Substring containment, Python `needle in hay` for `str`. -/
def strContains (hay needle : String) : Bool :=
  hay.toList.tails.any (fun t => needle.toList.isPrefixOf t)

/-- Python `s.strip()`. -/
def pyStrip (s : String) : String :=
  ⟨((s.data.dropWhile Char.isWhitespace).reverse.dropWhile
      Char.isWhitespace).reverse⟩

/-- Python `s.lower()`. -/
def pyLower (s : String) : String := ⟨s.data.map Char.toLower⟩

/-- Cut a character list at every character satisfying `p`. -/
def splitChL (p : Char → Bool) : List Char → List (List Char)
  | [] => [[]]
  | c :: rest =>
      if p c then [] :: splitChL p rest
      else
        match splitChL p rest with
        | [] => [[c]]
        | h :: t => (c :: h) :: t

/-- Split a string at every character satisfying `p` (Python
`re.split`/`str.split` with one-character separators; a delimiter run of
length `n` yields `n - 1` empty pieces, which every caller filters out). -/
def pySplitCh (p : Char → Bool) (s : String) : List String :=
  (splitChL p s.data).map (fun l => ⟨l⟩)

/-- Python `s.split()` with no argument: whitespace runs, no empty pieces. -/
def pySplitWs (s : String) : List String :=
  (pySplitCh Char.isWhitespace s).filter (fun w => w ≠ "")

/-- Left-to-right non-overlapping replacement; the fuel is one per consumed
character, so `fuel = length of the list` always suffices. -/
def replaceFuel (pat repl : List Char) : Nat → List Char → List Char
  | 0, l => l
  | _, [] => []
  | fuel + 1, c :: rest =>
      if pat.isPrefixOf (c :: rest) then
        repl ++ replaceFuel pat repl fuel (List.drop (pat.length - 1) rest)
      else c :: replaceFuel pat repl fuel rest

/-- Python `s.replace(pat, repl)`. -/
def pyReplace (s pat repl : String) : String :=
  ⟨replaceFuel pat.data repl.data s.data.length s.data⟩

/-- Python `s.startswith(p)` for one pattern. -/
def pyStartsWith (s p : String) : Bool := p.data.isPrefixOf s.data

/-- Python `s.endswith(p)` for one pattern. -/
def pyEndsWith (s p : String) : Bool := p.data.isSuffixOf s.data

/-- Python slicing `s[n:]`. -/
def pyDrop (s : String) (n : Nat) : String := ⟨s.data.drop n⟩

/-- Python `sep.join(pieces)`. -/
def pyJoinSep (sep : String) : List String → String
  | [] => ""
  | [x] => x
  | x :: rest => x ++ sep ++ pyJoinSep sep rest

/-- Association-list lookup (Python `d.get(k)` / `k in d` combined). -/
def findA {α β : Type} [DecidableEq α] (k : α) : List (α × β) → Option β
  | [] => none
  | (k0, v0) :: rest => if k0 = k then some v0 else findA k rest

/-- Python dict assignment `d[k] = v`: replace when present, else append. -/
def dictInsert {α β : Type} [DecidableEq α] (k : α) (v : β) :
    List (α × β) → List (α × β)
  | [] => [(k, v)]
  | (k0, v0) :: rest =>
      if k0 = k then (k, v) :: rest else (k0, v0) :: dictInsert k v rest

/-- Update the value stored at key `k` in place (Python mutating `d[k]`). -/
def updateA {α β : Type} [DecidableEq α] (k : α) (f : β → β) :
    List (α × β) → List (α × β)
  | [] => []
  | (k0, v0) :: rest =>
      if k0 = k then (k0, f v0) :: rest else (k0, v0) :: updateA k f rest

/-! ## Injectivity of the decimal rendering used by photo names

`add_photo` names photos `f"image_{self._counter}"`.  To reason about
freshness of dict keys we prove that `Nat.repr` (the rendering behind the
f-string) is injective. -/

/-- Value of a decimal digit character. -/
def digitVal (c : Char) : Nat := c.toNat - 48

/-- The digit characters of `n`, most significant first, mirroring the
branch structure of `Nat.toDigitsCore` at base 10. -/
def revDigits (n : Nat) : List Char :=
  if h : n / 10 = 0 then [Nat.digitChar (n % 10)]
  else revDigits (n / 10) ++ [Nat.digitChar (n % 10)]
  decreasing_by
    exact Nat.div_lt_self (by omega) (by omega)

/-- Decode a most-significant-first decimal digit string. -/
def decodeDigits (l : List Char) : Nat :=
  l.foldl (fun acc c => acc * 10 + digitVal c) 0

/-! ## `photo_memory_storage.py` : class `PhotoMemoryStorage`

Wall-clock `created_at` / feeling timestamps and the PIL metadata copies
(`size`, `format`) are omitted: they are copies of opaque external data that
no operation of the class ever reads back.  The `asyncio.Lock` makes every
mutating method atomic; the sequential operations are modelled as pure state
transformers here, and the lock itself is modelled explicitly for the
concurrency claim further below. -/

/-- One entry of a photo's `feelings` list (`add_feeling`). -/
structure Feeling where
  feeling : String
  user_id : Option String
deriving DecidableEq

/-- The per-photo record built in `add_photo`. -/
structure PhotoData where
  photo_name : String
  image : Nat
  file_path : String
  original_file_key : Option String
  hash : Nat
  feelings : List Feeling
deriving DecidableEq

/-- The mutable state of `PhotoMemoryStorage.__init__`. -/
structure PhotoMemoryStorage where
  photos : List (String × PhotoData)
  photo_queue : List String
  hash_to_name : List (Nat × String)
  counter : Nat
deriving DecidableEq

/-- `PhotoMemoryStorage.__init__`: all containers empty, counter `0`. -/
def initStorage : PhotoMemoryStorage :=
  { photos := [], photo_queue := [], hash_to_name := [], counter := 0 }

/-- The name `f"image_{self._counter}"` assigned in `add_photo`. -/
def photoName (counter : Nat) : String := "image_" ++ Nat.repr counter

/-- `add_photo`: dedup on the image hash; on a miss allocate the next
counter value as the name, store the record, enqueue, record the hash.
`hashFn image` stands for `self._calculate_image_hash(image)`. -/
def add_photo (hashFn : Nat → Nat) (s : PhotoMemoryStorage) (image : Nat)
    (file_path : String) (original_file_key : Option String) :
    (String × Bool) × PhotoMemoryStorage :=
  let image_hash := hashFn image
  match findA image_hash s.hash_to_name with
  | some existing_name => ((existing_name, false), s)
  | none =>
      let photo_name := photoName s.counter
      let photo_data : PhotoData :=
        { photo_name := photo_name
          image := image
          file_path := file_path
          original_file_key := original_file_key
          hash := image_hash
          feelings := [] }
      ((photo_name, true),
        { photos := dictInsert photo_name photo_data s.photos
          photo_queue := s.photo_queue ++ [photo_name]
          hash_to_name := dictInsert image_hash photo_name s.hash_to_name
          counter := s.counter + 1 })

/-- `add_feeling`: `False` when the photo is unknown, else append. -/
def add_feeling (s : PhotoMemoryStorage) (photo_name feeling : String)
    (user_id : Option String) : Bool × PhotoMemoryStorage :=
  match findA photo_name s.photos with
  | none => (false, s)
  | some _ =>
      (true,
        { s with
            photos := updateA photo_name
              (fun pd =>
                { pd with
                    feelings :=
                      pd.feelings ++ [{ feeling := feeling, user_id := user_id }] })
              s.photos })

/-- `pop_next_photo`: pop-front, `None` on the empty queue. -/
def pop_next_photo (s : PhotoMemoryStorage) :
    Option String × PhotoMemoryStorage :=
  match s.photo_queue with
  | [] => (none, s)
  | n :: rest => (some n, { s with photo_queue := rest })

/-- Result record of `get_stats`. -/
structure Stats where
  total_photos : Nat
  total_feelings : Nat
  queue_length : Nat
  unique_hashes : Nat
deriving DecidableEq

/-- `get_stats`. -/
def get_stats (s : PhotoMemoryStorage) : Stats :=
  { total_photos := s.photos.length
    total_feelings := (s.photos.map (fun p => p.2.feelings.length)).sum
    queue_length := s.photo_queue.length
    unique_hashes := s.hash_to_name.length }

/-- `clear_all`: reset every container and the counter. -/
def clear_all (_s : PhotoMemoryStorage) : PhotoMemoryStorage := initStorage

/-! ## `storyboard.py` : class `StoryboardGenerator`

The `try/except` wrapper in `generate_from_conversation` catches any internal
exception and substitutes `_get_fallback_scenes()`.  The embedded pipeline is
total, so the handler is modelled as unreachable; the fallback list itself is
embedded below.

Python `re.split(r"[.!?]+", t)` collapses delimiter runs; `String.split` on
the same delimiter set instead produces an empty piece between two adjacent
delimiters.  Both are filtered identically by the `len(sentence) < 10` guard,
so the retained sentences coincide. -/

/-- A scene of the storyboard (`@dataclass Scene`). -/
structure Scene where
  caption : String
  duration : ℚ
  emotional_tone : String
deriving DecidableEq

/-- `self.default_scene_duration = 2.5` (exact as a rational). -/
def default_scene_duration : ℚ := 2.5

/-- `self.min_scenes = 3`. -/
def min_scenes : Nat := 3

/-- `self.max_scenes = 5`. -/
def max_scenes : Nat := 5

/-- The `emotional_keywords` buckets of `_extract_emotional_moments`,
in dict order. -/
def emotional_keywords : List (String × List String) :=
  [("positive", ["happy", "joy", "excited", "amazing", "wonderful", "beautiful",
      "love", "grateful", "blessed", "perfect", "incredible"]),
   ("reflective", ["remember", "think", "realize", "understand", "feel",
      "moment", "special", "meaningful", "important"]),
   ("nostalgic", ["memory", "reminds", "brings back", "takes me back",
      "childhood", "past", "always", "used to"])]

/-- `_extract_emotional_moments`. -/
def extract_emotional_moments (transcript : String) : List String :=
  let sentences :=
    pySplitCh (fun c => c == '.' || c == '!' || c == '?') transcript
  let moments :=
    (sentences.map (fun s => pyLower (pyStrip s))).filter (fun sentence =>
      if sentence.length < 10 then false
      else
        let emotion_score :=
          (emotional_keywords.filter (fun bucket =>
            bucket.2.any (fun keyword => strContains sentence keyword))).length
        decide (emotion_score > 0))
  moments.take max_scenes

/-- The `theme_keywords` of `_identify_themes`, in dict order. -/
def theme_keywords : List (String × List String) :=
  [("nature", ["outdoor", "nature", "park", "tree", "flower", "sunset",
      "sunrise", "beach"]),
   ("family", ["family", "mom", "dad", "sister", "brother", "child",
      "parent", "together"]),
   ("achievement", ["proud", "accomplished", "success", "finished",
      "completed", "won"]),
   ("friendship", ["friend", "friends", "together", "laugh", "fun", "enjoy"]),
   ("reflection", ["peaceful", "quiet", "think", "contemplate", "mindful",
      "serene"]),
   ("celebration", ["celebrate", "party", "birthday", "anniversary",
      "milestone"])]

/-- `_identify_themes`. -/
def identify_themes (transcript photo_analysis : String) : List String :=
  let combined_text := pyLower (transcript ++ " " ++ photo_analysis)
  let identified_themes :=
    (theme_keywords.filter (fun t =>
      t.2.any (fun keyword => strContains combined_text keyword))).map Prod.fst
  identified_themes.take 3

/-- `_determine_tone_from_analysis`. -/
def determine_tone_from_analysis (photo_analysis : String) : String :=
  let analysis_lower := pyLower photo_analysis
  if ["happy", "joy", "smile", "celebrate"].any
      (fun w => strContains analysis_lower w) then "joyful"
  else if ["peaceful", "calm", "serene", "quiet"].any
      (fun w => strContains analysis_lower w) then "peaceful"
  else if ["warm", "cozy", "comfortable", "home"].any
      (fun w => strContains analysis_lower w) then "warm"
  else "contemplative"

/-- `_determine_tone_from_text`. -/
def determine_tone_from_text (text : String) : String :=
  let text_lower := pyLower text
  if ["excited", "amazing", "wonderful", "incredible"].any
      (fun w => strContains text_lower w) then "excited"
  else if ["grateful", "blessed", "thankful"].any
      (fun w => strContains text_lower w) then "grateful"
  else if ["remember", "memory", "reminds"].any
      (fun w => strContains text_lower w) then "nostalgic"
  else "reflective"

/-- The `common_words` stop list of `_extract_key_phrase`. -/
def common_words : List String :=
  ["the", "a", "an", "and", "or", "but", "in", "on", "at", "to", "for",
   "of", "with", "by"]

/-- `key_phrase[0].upper() + key_phrase[1:]` (only applied when nonempty). -/
def capitalizeFirst (s : String) : String :=
  match s.toList with
  | [] => s
  | c :: rest => (c.toUpper :: rest).asString

/-- `_extract_key_phrase`. -/
def extract_key_phrase (sentence : String) : String :=
  let words := pySplitWs sentence
  let filtered_words := words.filter (fun word =>
    decide (pyLower word ∉ common_words) && decide (word.length > 2))
  let key_phrase := pyJoinSep " " (filtered_words.take 8)
  let key_phrase :=
    if key_phrase ≠ "" then
      let key_phrase := capitalizeFirst key_phrase
      if (pyEndsWith key_phrase "." || pyEndsWith key_phrase "!"
          || pyEndsWith key_phrase "?") then key_phrase
      else key_phrase ++ "."
    else key_phrase
  if key_phrase ≠ "" then key_phrase else "A moment worth remembering."

/-- `_create_scenes`: Python truthiness of `photo_analysis` / `themes` is
nonemptiness. -/
def create_scenes (emotional_moments themes : List String)
    (photo_analysis : String) : List Scene :=
  let scenes : List Scene :=
    if photo_analysis ≠ "" then
      [{ caption := "This moment captured something special"
         duration := default_scene_duration
         emotional_tone := determine_tone_from_analysis photo_analysis }]
    else []
  let scenes := scenes ++
    (emotional_moments.take 2).map (fun moment =>
      { caption := extract_key_phrase moment
        duration := default_scene_duration
        emotional_tone := determine_tone_from_text moment })
  if themes ≠ [] then
    scenes ++
      [{ caption := "A memory to treasure always"
         duration := default_scene_duration
         emotional_tone := "reflective" }]
  else scenes

/-- The filler scene appended by the padding loop of `_optimize_scene_count`. -/
def fillerScene : Scene :=
  { caption := "This moment tells a story"
    duration := default_scene_duration
    emotional_tone := "contemplative" }

/-- `_optimize_scene_count`: the `while` padding loop appends `fillerScene`
until `min_scenes` is reached, i.e. appends `min_scenes - len` copies. -/
def optimize_scene_count (scenes : List Scene) : List Scene :=
  if scenes.length < min_scenes then
    scenes ++ List.replicate (min_scenes - scenes.length) fillerScene
  else if scenes.length > max_scenes then
    scenes.take max_scenes
  else scenes

/-- `_get_fallback_scenes`. -/
def get_fallback_scenes : List Scene :=
  [{ caption := "A moment captured in time"
     duration := default_scene_duration
     emotional_tone := "contemplative" },
   { caption := "This memory matters"
     duration := default_scene_duration
     emotional_tone := "warm" },
   { caption := "Forever in my heart"
     duration := default_scene_duration
     emotional_tone := "nostalgic" }]

/-- `generate_from_conversation` (the `except` branch returning
`_get_fallback_scenes()` is unreachable for the total embedded pipeline). -/
def generate_from_conversation (transcript photo_analysis : String) :
    List Scene :=
  let emotional_moments := extract_emotional_moments transcript
  let key_themes := identify_themes transcript photo_analysis
  let scenes := create_scenes emotional_moments key_themes photo_analysis
  optimize_scene_count scenes

/-! ## `caption_generator.py` : class `CaptionGenerator`

The external Gemini call `self.genai_model.generate_content([prompt, image])`
is modelled by an outcome parameter `response : Except Unit String`, standing
for the `response.text` obtained (`.ok`) or any raised exception (`.error`).
The prompt built from the image, transcript and scenes only shapes that
external text, so it does not appear in the model. -/

/-- `self.fallback_captions` of `CaptionGenerator.__init__`. -/
def fallback_captions : List String :=
  ["A moment to remember", "Captured in time", "This memory matters",
   "Forever in my heart", "A story worth telling"]

/-- The per-line cleanup inside the loop of `_parse_caption_response`:
strip `**`, strip a leading `1.` … `5.` marker, strip a `Scene …:` head. -/
def cleanLine (line : String) : String :=
  let line := pyStrip (pyReplace line "**" "")
  let line :=
    if ["1.", "2.", "3.", "4.", "5."].any (fun p => pyStartsWith line p) then
      pyStrip (pyDrop line 2)
    else line
  if pyStartsWith line "Scene" then
    match line.toList.findIdx? (fun c => c == ':') with
    | some colon_pos => pyStrip (pyDrop line (colon_pos + 1))
    | none => line
  else line

/-- The `while len(captions) < count` extension loop of
`_get_fallback_captions`: `captions.extend(fallback_captions[:min(count -
len(captions), len(fallback_captions))])` until `len(captions) ≥ count`. -/
def fallbackLoop (count : Nat) (captions : List String) : List String :=
  if _h : captions.length < count then
    fallbackLoop count
      (captions ++ fallback_captions.take
        (min (count - captions.length) fallback_captions.length))
  else captions
termination_by count - captions.length
decreasing_by
  simp only [List.length_append, List.length_take, fallback_captions,
    List.length_cons, List.length_nil]
  omega

/-- `_get_fallback_captions`. -/
def get_fallback_captions (count : Nat) : List String :=
  if count ≤ fallback_captions.length then fallback_captions.take count
  else (fallbackLoop count fallback_captions).take count

/-- The line-collection loop of `_parse_caption_response`: split into
stripped nonempty lines, clean each, keep those that are nonempty and within
the 12-word tolerance (`len(line.split()) <= 12`). -/
def parsedCaptions (response_text : String) : List String :=
  let lines :=
    ((pySplitCh (fun c => c == '\n') response_text).map pyStrip).filter
      (fun l => l ≠ "")
  lines.foldl (fun acc l =>
    let line := cleanLine l
    if line ≠ "" ∧ (pySplitWs line).length ≤ 12 then acc ++ [line]
    else acc) []

/-- `_parse_caption_response`.  `if not response_text` is the empty string. -/
def parse_caption_response (response_text : String) (expected_count : Nat) :
    List String :=
  if response_text = "" then get_fallback_captions expected_count
  else
    let captions := parsedCaptions response_text
    if captions.length < expected_count then
      captions ++ fallback_captions.take (expected_count - captions.length)
    else if captions.length > expected_count then
      captions.take expected_count
    else captions

/-- `generate_captions_for_scenes`: parse the model response, or fall back
to `_get_fallback_captions(len(scenes))` when the call raised. -/
def generate_captions_for_scenes (response : Except Unit String)
    (scenes : List Scene) : List String :=
  match response with
  | .ok response_text => parse_caption_response response_text scenes.length
  | .error _ => get_fallback_captions scenes.length

/-! ## `frame_creator.py` : class `FrameCreator`

`_prepare_base_image`, `_create_single_frame` and `_save_temp_frame` are
PIL raster/file operations; they are modelled by outcome oracles:
`prepare` is the preparation of the base image (`.error` when it raises) and
`step i caption` is the rendering and saving of frame `i` (`.ok path` is the
returned temp-file path, `.error` any raised exception). -/

/-- The `for i, caption in enumerate(captions)` loop body of
`create_captioned_frames`: render, save, append; a raised exception aborts
the loop. -/
def renderFrames (step : Nat → String → Except Unit String) :
    Nat → List String → Except Unit (List String)
  | _, [] => .ok []
  | i, caption :: rest => do
      let frame_path ← step i caption
      let frame_paths ← renderFrames step (i + 1) rest
      pure (frame_path :: frame_paths)

/-- `create_captioned_frames`: the surrounding `try/except` returns `[]` on
any exception, a full path list otherwise. -/
def create_captioned_frames (prepare : Except Unit Unit)
    (step : Nat → String → Except Unit String) (captions : List String) :
    List String :=
  match (do
    let _ ← prepare
    renderFrames step 0 captions : Except Unit (List String)) with
  | .ok frame_paths => frame_paths
  | .error _ => []

/-! ## `video_generator.py` : class `VideoGenerator`

The FFmpeg subprocess, the S3 upload and the presigned-URL generation are
external; their outcomes are a `VideoEnv`.  The model records which local
temporary files the call creates and deletes, and the edit-list text written
for the encoder (as structured entries).  `_build_video_filter` only shapes
the FFmpeg command line, not the artifacts, and is not modelled. -/

/-- The two local temporary files of one `create_memory_video` call. -/
inductive TFile where
  /-- `ffmpeg_input_{pid}.txt`, the edit-list descriptor. -/
  | inputList
  /-- the encoded video at `temp_output_path`. -/
  | encodedVideo
deriving DecidableEq

/-- Outcome of the FFmpeg subprocess; `outWritten` says whether a (possibly
incomplete) output file exists at `temp_output_path` afterwards. -/
inductive EncResult where
  | success
  | failExit (outWritten : Bool)
  | timedOut (outWritten : Bool)
deriving DecidableEq

/-- Outcome of `generate_presigned_url`: raised, or returned a value. -/
inductive PresignResult where
  | raised
  | returned (url : Option String)
deriving DecidableEq

/-- Outcomes of the external steps of one `create_memory_video` call. -/
structure VideoEnv where
  /-- whether `_create_ffmpeg_input_list` opens and writes its file
  (`false`: the `open` raised, nothing created, `None` returned). -/
  inputListOk : Bool
  encResult : EncResult
  /-- result of `_upload_video_to_s3` (internally caught, `bool`). -/
  uploadOk : Bool
  presign : PresignResult
deriving DecidableEq

/-- One line of the edit list written by `_create_ffmpeg_input_list`. -/
inductive FEntry where
  /-- `file '<escaped path>'` -/
  | file (path : String)
  /-- `duration <seconds>` -/
  | dur (d : ℚ)
deriving DecidableEq

/-- `frame_path.replace("\\", "/").replace("'", "\\'")`. -/
def escapePath (p : String) : String :=
  pyReplace (pyReplace p "\\" "/") "\x27" "\\\x27"

/-- The entries written by `_create_ffmpeg_input_list`: a `file` and a
`duration` line per zipped (frame, scene) pair, then the last frame again. -/
def create_ffmpeg_input_list (frame_paths : List String)
    (scenes : List Scene) : List FEntry :=
  ((frame_paths.zip scenes).map (fun fs =>
    [FEntry.file (escapePath fs.1), FEntry.dur fs.2.duration])).flatten
  ++ (if frame_paths ≠ [] ∧ scenes ≠ [] then
        [FEntry.file (escapePath (frame_paths.getLastD ""))]
      else [])

/-- Result of `_create_video_with_transitions`: success flag, the temp files
created and deleted during the call, and the edit list written. -/
structure CreateVideoResult where
  ok : Bool
  created : List TFile
  deleted : List TFile
  editList : List FEntry
deriving DecidableEq

/-- `_create_video_with_transitions`.  On subprocess timeout,
`subprocess.run` raises `TimeoutExpired` before the
`_cleanup_temp_file(input_list_path)` line, so no deletion happens on that
path; on a nonzero exit the cleanup line has already run. -/
def create_video_with_transitions (env : VideoEnv)
    (frame_paths : List String) (scenes : List Scene) : CreateVideoResult :=
  if env.inputListOk = false then
    { ok := false, created := [], deleted := [], editList := [] }
  else
    let entries := create_ffmpeg_input_list frame_paths scenes
    match env.encResult with
    | .success =>
        { ok := true
          created := [.inputList, .encodedVideo]
          deleted := [.inputList]
          editList := entries }
    | .failExit ow =>
        { ok := false
          created := [.inputList] ++ (if ow then [.encodedVideo] else [])
          deleted := [.inputList]
          editList := entries }
    | .timedOut ow =>
        { ok := false
          created := [.inputList] ++ (if ow then [.encodedVideo] else [])
          deleted := []
          editList := entries }

/-- Result of `create_memory_video`. -/
structure VideoRunResult where
  result : Option String
  created : List TFile
  deleted : List TFile
  editList : List FEntry
deriving DecidableEq

/-- `create_memory_video`: empty-frames guard, length-mismatch truncation to
the shorter list (a logged warning), encode, upload, presign, cleanup.  The
`except` handler at the end returns `None` without deleting anything, which
is where a raised `generate_presigned_url` lands. -/
def create_memory_video (env : VideoEnv) (frame_paths : List String)
    (scenes : List Scene) : VideoRunResult :=
  if frame_paths = [] then
    { result := none, created := [], deleted := [], editList := [] }
  else
    let pair :=
      if frame_paths.length ≠ scenes.length then
        let min_count := min frame_paths.length scenes.length
        (frame_paths.take min_count, scenes.take min_count)
      else (frame_paths, scenes)
    let r := create_video_with_transitions env pair.1 pair.2
    if r.ok = false then
      { result := none, created := r.created, deleted := r.deleted,
        editList := r.editList }
    else if env.uploadOk then
      match env.presign with
      | .raised =>
          { result := none, created := r.created, deleted := r.deleted,
            editList := r.editList }
      | .returned url =>
          { result := url, created := r.created,
            deleted := r.deleted ++ [.encodedVideo], editList := r.editList }
    else
      { result := none, created := r.created,
        deleted := r.deleted ++ [.encodedVideo], editList := r.editList }

/-- The temp files created by the call and never deleted by it. -/
def leftover (r : VideoRunResult) : List TFile :=
  r.created.filter (fun f => !(r.deleted.contains f))

/-! ## The lock in `add_photo` (concurrency model for two callers)

The body of `add_photo` runs entirely under `async with self._lock`.  Two
concurrent calls are modelled as a small-step system: each call is split
into its microsteps — acquire the lock, hash computation plus dedup lookup,
counter allocation, photos-map insert, queue append, hash-map insert,
release — every step after acquisition requiring possession of the lock,
exactly as the `async with` scope does.  A scheduler is an arbitrary list of
thread choices; a chosen thread whose next step is blocked (lock held by the
other caller) does nothing. -/

/-- The arguments of one `add_photo` call. -/
structure AddCall where
  image : Nat
  file_path : String
  original_file_key : Option String
deriving DecidableEq

/-- `add_photo` of one `AddCall` (the atomic, sequential semantics). -/
def addCallAtomic (hashFn : Nat → Nat) (s : PhotoMemoryStorage)
    (c : AddCall) : (String × Bool) × PhotoMemoryStorage :=
  add_photo hashFn s c.image c.file_path c.original_file_key

/-- The `photo_data` record built in `add_photo`. -/
def mkPhotoData (hashFn : Nat → Nat) (c : AddCall) (name : String) :
    PhotoData :=
  { photo_name := name
    image := c.image
    file_path := c.file_path
    original_file_key := c.original_file_key
    hash := hashFn c.image
    feelings := [] }

/-- Program counter of one in-flight `add_photo` call. -/
inductive TPc where
  | start
  | lookup
  | alloc
  | insertP (name : String)
  | enqueue (name : String)
  | insertH (name : String)
  | unlock (res : String × Bool)
  | done (res : String × Bool)
deriving DecidableEq

/-- Shared state of the two-caller system: the storage, the lock owner
(`false` = caller 1, `true` = caller 2), and both program counters. -/
structure Config where
  store : PhotoMemoryStorage
  lock : Option Bool
  pc1 : TPc
  pc2 : TPc
deriving DecidableEq

/-- Both callers at `start`, lock free. -/
def initConfig (s : PhotoMemoryStorage) : Config :=
  { store := s, lock := none, pc1 := .start, pc2 := .start }

/-- One microstep of caller `tid`; a blocked or finished caller leaves the
configuration unchanged. -/
def threadStep (hashFn : Nat → Nat) (c1 c2 : AddCall) (tid : Bool)
    (cfg : Config) : Config :=
  let call := if tid then c2 else c1
  let pc := if tid then cfg.pc2 else cfg.pc1
  let setPc := fun (cfg : Config) (p : TPc) =>
    if tid then { cfg with pc2 := p } else { cfg with pc1 := p }
  match pc with
  | .start =>
      match cfg.lock with
      | none => setPc { cfg with lock := some tid } .lookup
      | some _ => cfg
  | .lookup =>
      if cfg.lock = some tid then
        match findA (hashFn call.image) cfg.store.hash_to_name with
        | some existing_name => setPc cfg (.unlock (existing_name, false))
        | none => setPc cfg .alloc
      else cfg
  | .alloc =>
      if cfg.lock = some tid then
        let name := photoName cfg.store.counter
        setPc
          { cfg with store := { cfg.store with counter := cfg.store.counter + 1 } }
          (.insertP name)
      else cfg
  | .insertP name =>
      if cfg.lock = some tid then
        let st := cfg.store
        let st := { st with photos := dictInsert name (mkPhotoData hashFn call name) st.photos }
        setPc { cfg with store := st } (.enqueue name)
      else cfg
  | .enqueue name =>
      if cfg.lock = some tid then
        let st := cfg.store
        let st := { st with photo_queue := st.photo_queue ++ [name] }
        setPc { cfg with store := st } (.insertH name)
      else cfg
  | .insertH name =>
      if cfg.lock = some tid then
        let st := cfg.store
        let st := { st with hash_to_name := dictInsert (hashFn call.image) name st.hash_to_name }
        setPc { cfg with store := st } (.unlock (name, true))
      else cfg
  | .unlock res =>
      if cfg.lock = some tid then
        setPc { cfg with lock := none } (.done res)
      else cfg
  | .done _ => cfg

/-- Run a scheduler. -/
def execSched (hashFn : Nat → Nat) (c1 c2 : AddCall) (cfg : Config)
    (sched : List Bool) : Config :=
  sched.foldl (fun cfg tid => threadStep hashFn c1 c2 tid cfg) cfg

/-- Relation between the program counter and the storage for the caller
holding the lock, having entered the critical section at storage `s`. -/
def inCS (hashFn : Nat → Nat) (call : AddCall) (s : PhotoMemoryStorage) :
    TPc → PhotoMemoryStorage → Prop
  | .lookup, st => st = s
  | .alloc, st =>
      st = s ∧ findA (hashFn call.image) s.hash_to_name = none
  | .insertP name, st =>
      findA (hashFn call.image) s.hash_to_name = none ∧
      name = photoName s.counter ∧
      st = { s with counter := s.counter + 1 }
  | .enqueue name, st =>
      findA (hashFn call.image) s.hash_to_name = none ∧
      name = photoName s.counter ∧
      st = { s with
               counter := s.counter + 1
               photos := dictInsert name (mkPhotoData hashFn call name) s.photos }
  | .insertH name, st =>
      findA (hashFn call.image) s.hash_to_name = none ∧
      name = photoName s.counter ∧
      st = { s with
               counter := s.counter + 1
               photos := dictInsert name (mkPhotoData hashFn call name) s.photos
               photo_queue := s.photo_queue ++ [name] }
  | .unlock res, st =>
      st = (addCallAtomic hashFn s call).2 ∧ res = (addCallAtomic hashFn s call).1
  | _, _ => False

/-- A configuration in which caller `tid` is inside the critical section it
entered at storage `entry`, while the other caller sits at `otherPc`. -/
def csShape (hashFn : Nat → Nat) (call : AddCall) (tid : Bool)
    (entry : PhotoMemoryStorage) (otherPc : TPc) (cfg : Config) : Prop :=
  ∃ pc st, inCS hashFn call entry pc st ∧
    cfg = { store := st, lock := some tid,
            pc1 := if tid then otherPc else pc,
            pc2 := if tid then pc else otherPc }

/-! ## Operation sequences over the store (for the consistency invariant) -/

/-- One call of the conversational layer into the store. -/
inductive StorageOp where
  | add (image : Nat) (file_path : String) (original_file_key : Option String)
  | feel (photo_name feeling : String) (user_id : Option String)
  | pop
  | clear
deriving DecidableEq

/-- Apply one operation (results discarded, state kept). -/
def applyOp (hashFn : Nat → Nat) (s : PhotoMemoryStorage) :
    StorageOp → PhotoMemoryStorage
  | .add image fp ofk => (add_photo hashFn s image fp ofk).2
  | .feel pn f uid => (add_feeling s pn f uid).2
  | .pop => (pop_next_photo s).2
  | .clear => clear_all s

/-- Run a sequence of operations from the freshly constructed store. -/
def runOps (hashFn : Nat → Nat) (ops : List StorageOp) : PhotoMemoryStorage :=
  ops.foldl (applyOp hashFn) initStorage

/-- Structural invariant of every reachable store state: the photo keys are
exactly `image_0 … image_{counter-1}` in order, the hash map has one entry
per photo, every queued name is a photo key, and the queue has no
duplicates. -/
def StoreInv (s : PhotoMemoryStorage) : Prop :=
  s.photos.map Prod.fst = (List.range s.counter).map photoName ∧
  s.hash_to_name.length = s.counter ∧
  (∀ n ∈ s.photo_queue, n ∈ s.photos.map Prod.fst) ∧
  s.photo_queue.Nodup

/-- Reachability invariant of the two-caller system started at `s0`: either
nothing has happened, or one caller is inside its critical section while the
other waits or is finished, or calls have completed in one of the two
sequential orders. -/
inductive ReachInv (hashFn : Nat → Nat) (c1 c2 : AddCall)
    (s0 : PhotoMemoryStorage) : Config → Prop where
  | init : ReachInv hashFn c1 c2 s0 (initConfig s0)
  | cs1 (cfg : Config) (h : csShape hashFn c1 false s0 .start cfg) :
      ReachInv hashFn c1 c2 s0 cfg
  | cs2 (cfg : Config) (h : csShape hashFn c2 true s0 .start cfg) :
      ReachInv hashFn c1 c2 s0 cfg
  | done1 : ReachInv hashFn c1 c2 s0
      { store := (addCallAtomic hashFn s0 c1).2, lock := none,
        pc1 := .done (addCallAtomic hashFn s0 c1).1, pc2 := .start }
  | done2 : ReachInv hashFn c1 c2 s0
      { store := (addCallAtomic hashFn s0 c2).2, lock := none,
        pc1 := .start, pc2 := .done (addCallAtomic hashFn s0 c2).1 }
  | cs21 (cfg : Config)
      (h : csShape hashFn c2 true (addCallAtomic hashFn s0 c1).2
        (.done (addCallAtomic hashFn s0 c1).1) cfg) :
      ReachInv hashFn c1 c2 s0 cfg
  | cs12 (cfg : Config)
      (h : csShape hashFn c1 false (addCallAtomic hashFn s0 c2).2
        (.done (addCallAtomic hashFn s0 c2).1) cfg) :
      ReachInv hashFn c1 c2 s0 cfg
  | done12 : ReachInv hashFn c1 c2 s0
      { store := (addCallAtomic hashFn (addCallAtomic hashFn s0 c1).2 c2).2,
        lock := none,
        pc1 := .done (addCallAtomic hashFn s0 c1).1,
        pc2 := .done (addCallAtomic hashFn
          (addCallAtomic hashFn s0 c1).2 c2).1 }
  | done21 : ReachInv hashFn c1 c2 s0
      { store := (addCallAtomic hashFn (addCallAtomic hashFn s0 c2).2 c1).2,
        lock := none,
        pc1 := .done (addCallAtomic hashFn
          (addCallAtomic hashFn s0 c2).2 c1).1,
        pc2 := .done (addCallAtomic hashFn s0 c2).1 }

/-! ## Theorems -/

theorem findA_eq_none_iff {α β : Type} [DecidableEq α] (k : α)
    (l : List (α × β)) : findA k l = none ↔ k ∉ l.map Prod.fst := by
  induction l with
  | nil => simp [findA]
  | cons p rest ih =>
    obtain ⟨k0, v0⟩ := p
    by_cases h : k0 = k
    · subst h; simp [findA]
    · have h2 : ¬k = k0 := fun e => h e.symm
      simp [findA, h, ih, h2]

theorem dictInsert_of_not_mem {α β : Type} [DecidableEq α] (k : α) (v : β)
    (l : List (α × β)) (h : k ∉ l.map Prod.fst) :
    dictInsert k v l = l ++ [(k, v)] := by
  induction l with
  | nil => simp [dictInsert]
  | cons p rest ih =>
    obtain ⟨k0, v0⟩ := p
    simp only [List.map_cons, List.mem_cons] at h
    push_neg at h
    simp [dictInsert, Ne.symm h.1, ih h.2]

theorem findA_dictInsert_self {α β : Type} [DecidableEq α] (k : α) (v : β)
    (l : List (α × β)) : findA k (dictInsert k v l) = some v := by
  induction l with
  | nil => simp [dictInsert, findA]
  | cons p rest ih =>
    obtain ⟨k0, v0⟩ := p
    by_cases h : k0 = k <;> simp [dictInsert, findA, h, ih]

theorem updateA_map_fst {α β : Type} [DecidableEq α] (k : α) (f : β → β)
    (l : List (α × β)) : (updateA k f l).map Prod.fst = l.map Prod.fst := by
  induction l with
  | nil => simp [updateA]
  | cons p rest ih =>
    obtain ⟨k0, v0⟩ := p
    by_cases h : k0 = k <;> simp [updateA, h, ih]

theorem toDigitsCore_eq_revDigits :
    ∀ (fuel n : Nat), n < fuel → ∀ (ds : List Char),
      Nat.toDigitsCore 10 fuel n ds = revDigits n ++ ds := by
  intro fuel
  induction fuel with
  | zero => omega
  | succ f ih =>
    intro n hn ds
    rw [Nat.toDigitsCore, revDigits]
    by_cases h : n / 10 = 0
    · simp [h]
    · have hn10 : n / 10 < n := Nat.div_lt_self (by omega) (by omega)
      simp only [h, if_false, dif_neg h]
      rw [ih (n / 10) (by omega) _]
      simp

theorem digitVal_digitChar (n : Nat) (h : n < 10) :
    digitVal (Nat.digitChar n) = n := by
  interval_cases n <;> rfl

theorem decodeDigits_concat (l : List Char) (c : Char) :
    decodeDigits (l ++ [c]) = decodeDigits l * 10 + digitVal c := by
  simp [decodeDigits, List.foldl_append]

theorem decodeDigits_revDigits (n : Nat) : decodeDigits (revDigits n) = n := by
  induction n using Nat.strong_induction_on with
  | _ n ih =>
    rw [revDigits]
    by_cases h : n / 10 = 0
    · have hlt : n < 10 := Nat.div_eq_zero_iff (by omega) |>.mp h
      rw [dif_pos h]
      simp [decodeDigits, Nat.mod_eq_of_lt hlt, digitVal_digitChar n hlt]
    · have hn10 : n / 10 < n := Nat.div_lt_self (by omega) (by omega)
      rw [dif_neg h, decodeDigits_concat, ih _ hn10,
        digitVal_digitChar _ (Nat.mod_lt n (by omega))]
      omega

theorem revDigits_injective : Function.Injective revDigits := by
  intro a b h
  have := congrArg decodeDigits h
  rwa [decodeDigits_revDigits, decodeDigits_revDigits] at this

theorem natRepr_injective : Function.Injective Nat.repr := by
  intro a b h
  apply revDigits_injective
  have ha : Nat.repr a = (revDigits a).asString := by
    unfold Nat.repr Nat.toDigits
    rw [toDigitsCore_eq_revDigits (a + 1) a (by omega)]
    simp
  have hb : Nat.repr b = (revDigits b).asString := by
    unfold Nat.repr Nat.toDigits
    rw [toDigitsCore_eq_revDigits (b + 1) b (by omega)]
    simp
  rw [ha, hb] at h
  have := congrArg String.data h
  simpa [List.asString] using this

theorem photoName_injective : Function.Injective photoName := by
  intro a b h
  apply natRepr_injective
  have := congrArg String.data h
  simp only [photoName, String.data_append] at this
  exact String.ext (List.append_cancel_left this)

/-! ## Store lemmas -/

theorem findA_dictInsert_ne {α β : Type} [DecidableEq α] (k k' : α) (v : β)
    (l : List (α × β)) (h : k' ≠ k) :
    findA k' (dictInsert k v l) = findA k' l := by
  induction l with
  | nil =>
    have h2 : ¬k = k' := fun e => h e.symm
    simp [dictInsert, findA, h2]
  | cons p rest ih =>
    obtain ⟨k0, v0⟩ := p
    by_cases hk : k0 = k
    · subst hk
      have h2 : ¬k0 = k' := fun e => h e.symm
      simp [dictInsert, findA, h2]
    · simp [dictInsert, findA, hk, ih]

theorem photoName_not_mem_range (c : Nat) :
    photoName c ∉ (List.range c).map photoName := by
  simp only [List.mem_map, List.mem_range]
  rintro ⟨k, hk, he⟩
  have := photoName_injective he
  omega

/-- Unfolding of `add_photo` when the image hash is not yet stored. -/
theorem add_photo_fresh (hashFn : Nat → Nat) (s : PhotoMemoryStorage)
    (image : Nat) (fp : String) (ofk : Option String)
    (h : findA (hashFn image) s.hash_to_name = none) :
    add_photo hashFn s image fp ofk =
      ((photoName s.counter, true),
        { photos := dictInsert (photoName s.counter)
            { photo_name := photoName s.counter, image := image,
              file_path := fp, original_file_key := ofk,
              hash := hashFn image, feelings := [] } s.photos
          photo_queue := s.photo_queue ++ [photoName s.counter]
          hash_to_name :=
            dictInsert (hashFn image) (photoName s.counter) s.hash_to_name
          counter := s.counter + 1 }) := by
  simp only [add_photo, h]

/-- Unfolding of `add_photo` when the image hash is already stored. -/
theorem add_photo_dup (hashFn : Nat → Nat) (s : PhotoMemoryStorage)
    (image : Nat) (fp : String) (ofk : Option String) (n : String)
    (h : findA (hashFn image) s.hash_to_name = some n) :
    add_photo hashFn s image fp ofk = ((n, false), s) := by
  simp only [add_photo, h]

theorem storeInv_init : StoreInv initStorage := by
  simp [StoreInv, initStorage]

theorem storeInv_applyOp (hashFn : Nat → Nat) (s : PhotoMemoryStorage)
    (op : StorageOp) (h : StoreInv s) : StoreInv (applyOp hashFn s op) := by
  obtain ⟨hkeys, hhash, hqueue, hnodup⟩ := h
  cases op with
  | add image fp ofk =>
    rcases hfind : findA (hashFn image) s.hash_to_name with _ | n
    · have hfreshName : photoName s.counter ∉ s.photos.map Prod.fst := by
        rw [hkeys]; exact photoName_not_mem_range s.counter
      have hfreshHash : hashFn image ∉ s.hash_to_name.map Prod.fst :=
        (findA_eq_none_iff _ _).mp hfind
      simp only [applyOp, add_photo_fresh hashFn s image fp ofk hfind]
      refine ⟨?_, ?_, ?_, ?_⟩
      · rw [dictInsert_of_not_mem _ _ _ hfreshName]
        simp [List.range_succ, hkeys]
      · rw [dictInsert_of_not_mem _ _ _ hfreshHash]
        simp [hhash]
      · intro n hn
        rw [dictInsert_of_not_mem _ _ _ hfreshName]
        simp only [List.map_append, List.map_cons, List.map_nil,
          List.mem_append, List.mem_cons]
        rcases List.mem_append.mp hn with hn | hn
        · exact Or.inl (hqueue n hn)
        · simp only [List.mem_singleton] at hn
          simp [hn]
      · refine List.Nodup.append hnodup (List.nodup_singleton _) ?_
        intro a ha hb
        simp only [List.mem_singleton] at hb
        subst hb
        exact hfreshName (hqueue _ ha)
    · simp only [applyOp, add_photo_dup hashFn s image fp ofk n hfind]
      exact ⟨hkeys, hhash, hqueue, hnodup⟩
  | feel pn f uid =>
    simp only [applyOp, add_feeling]
    rcases hfind : findA pn s.photos with _ | pd
    · exact ⟨hkeys, hhash, hqueue, hnodup⟩
    · refine ⟨?_, hhash, ?_, hnodup⟩
      · rw [updateA_map_fst, hkeys]
      · intro n hn
        rw [updateA_map_fst]
        exact hqueue n hn
  | pop =>
    cases hq : s.photo_queue with
    | nil =>
      simp only [applyOp, pop_next_photo, hq]
      exact ⟨hkeys, hhash, hqueue, hnodup⟩
    | cons q rest =>
      simp only [applyOp, pop_next_photo, hq]
      rw [hq] at hqueue hnodup
      refine ⟨hkeys, hhash, ?_, (List.nodup_cons.mp hnodup).2⟩
      intro n hn
      exact hqueue n (List.mem_cons_of_mem q hn)
  | clear =>
    simp only [applyOp, clear_all]
    exact storeInv_init

theorem storeInv_runOps (hashFn : Nat → Nat) (ops : List StorageOp) :
    StoreInv (runOps hashFn ops) := by
  suffices h : ∀ (s : PhotoMemoryStorage), StoreInv s →
      StoreInv (ops.foldl (applyOp hashFn) s) from h initStorage storeInv_init
  induction ops with
  | nil => intro s hs; exact hs
  | cons op rest ih =>
    intro s hs
    exact ih (applyOp hashFn s op) (storeInv_applyOp hashFn s op hs)

/-- C1 (dedup idempotence): from any reachable store in which image `I` is
not yet stored, calling `add_photo` with `I` twice returns the same photo
name both times, `is_new = true` on the first call and `is_new = false` on
the second, `get_stats().total_photos` grows by exactly 1 across the two
calls, and the second call leaves the store unchanged. -/
theorem c1_dedup_idempotent (hashFn : Nat → Nat) (ops : List StorageOp)
    (image : Nat) (fp1 fp2 : String) (ofk1 ofk2 : Option String)
    (hfresh : findA (hashFn image) (runOps hashFn ops).hash_to_name = none) :
    (add_photo hashFn (runOps hashFn ops) image fp1 ofk1).1.1 =
      (add_photo hashFn
        (add_photo hashFn (runOps hashFn ops) image fp1 ofk1).2
        image fp2 ofk2).1.1 ∧
    (add_photo hashFn (runOps hashFn ops) image fp1 ofk1).1.2 = true ∧
    (add_photo hashFn
      (add_photo hashFn (runOps hashFn ops) image fp1 ofk1).2
      image fp2 ofk2).1.2 = false ∧
    (get_stats (add_photo hashFn
      (add_photo hashFn (runOps hashFn ops) image fp1 ofk1).2
      image fp2 ofk2).2).total_photos =
      (get_stats (runOps hashFn ops)).total_photos + 1 ∧
    (add_photo hashFn
      (add_photo hashFn (runOps hashFn ops) image fp1 ofk1).2
      image fp2 ofk2).2 =
      (add_photo hashFn (runOps hashFn ops) image fp1 ofk1).2 := by
  obtain ⟨hkeys, hhash, hq, hnd⟩ := storeInv_runOps hashFn ops
  set s := runOps hashFn ops with hs
  have hfreshName : photoName s.counter ∉ s.photos.map Prod.fst := by
    rw [hkeys]; exact photoName_not_mem_range s.counter
  rw [add_photo_fresh hashFn s image fp1 ofk1 hfresh]
  simp only [add_photo, findA_dictInsert_self]
  refine ⟨trivial, trivial, trivial, ?_, trivial⟩
  simp [get_stats, dictInsert_of_not_mem _ _ _ hfreshName]

/-- Witness for C1 at a concrete input. -/
theorem c1_dedup_idempotent_witness :
    (findA ((fun n => n) 0) (runOps (fun n => n) []).hash_to_name = none) ∧
    ((add_photo (fun n => n) (runOps (fun n => n) []) 0 "a" none).1.1 =
      (add_photo (fun n => n)
        (add_photo (fun n => n) (runOps (fun n => n) []) 0 "a" none).2
        0 "b" none).1.1 ∧
    (add_photo (fun n => n) (runOps (fun n => n) []) 0 "a" none).1.2 = true ∧
    (add_photo (fun n => n)
      (add_photo (fun n => n) (runOps (fun n => n) []) 0 "a" none).2
      0 "b" none).1.2 = false ∧
    (get_stats (add_photo (fun n => n)
      (add_photo (fun n => n) (runOps (fun n => n) []) 0 "a" none).2
      0 "b" none).2).total_photos =
      (get_stats (runOps (fun n => n) [])).total_photos + 1 ∧
    (add_photo (fun n => n)
      (add_photo (fun n => n) (runOps (fun n => n) []) 0 "a" none).2
      0 "b" none).2 =
      (add_photo (fun n => n) (runOps (fun n => n) []) 0 "a" none).2) :=
  ⟨rfl, c1_dedup_idempotent (fun n => n) [] 0 "a" "b" none none rfl⟩

/-- C4 (queue FIFO): from an empty store, adding three photos with pairwise
distinct hashes and popping four times yields the three assigned names in
upload order and then `none`; and any `add_photo` whose hash is already
stored leaves the queue unchanged. -/
theorem c4_queue_fifo (hashFn : Nat → Nat) (i1 i2 i3 : Nat)
    (fp1 fp2 fp3 : String) (o1 o2 o3 : Option String)
    (h12 : hashFn i1 ≠ hashFn i2) (h13 : hashFn i1 ≠ hashFn i3)
    (h23 : hashFn i2 ≠ hashFn i3) :
    ((pop_next_photo (add_photo hashFn
        (add_photo hashFn (add_photo hashFn initStorage i1 fp1 o1).2
          i2 fp2 o2).2 i3 fp3 o3).2).1 =
      some (add_photo hashFn initStorage i1 fp1 o1).1.1 ∧
    (pop_next_photo (pop_next_photo (add_photo hashFn
        (add_photo hashFn (add_photo hashFn initStorage i1 fp1 o1).2
          i2 fp2 o2).2 i3 fp3 o3).2).2).1 =
      some (add_photo hashFn (add_photo hashFn initStorage i1 fp1 o1).2
        i2 fp2 o2).1.1 ∧
    (pop_next_photo (pop_next_photo (pop_next_photo (add_photo hashFn
        (add_photo hashFn (add_photo hashFn initStorage i1 fp1 o1).2
          i2 fp2 o2).2 i3 fp3 o3).2).2).2).1 =
      some (add_photo hashFn
        (add_photo hashFn (add_photo hashFn initStorage i1 fp1 o1).2
          i2 fp2 o2).2 i3 fp3 o3).1.1 ∧
    (pop_next_photo (pop_next_photo (pop_next_photo (pop_next_photo
        (add_photo hashFn (add_photo hashFn
          (add_photo hashFn initStorage i1 fp1 o1).2 i2 fp2 o2).2
          i3 fp3 o3).2).2).2).2).1 = none) ∧
    ∀ (s : PhotoMemoryStorage) (image : Nat) (fp : String)
      (ofk : Option String) (n : String),
      findA (hashFn image) s.hash_to_name = some n →
      (add_photo hashFn s image fp ofk).2.photo_queue = s.photo_queue := by
  constructor
  · have e1 := add_photo_fresh hashFn initStorage i1 fp1 o1 (by rfl)
    have f2 : findA (hashFn i2)
        (add_photo hashFn initStorage i1 fp1 o1).2.hash_to_name = none := by
      rw [e1]
      dsimp only
      rw [findA_dictInsert_ne _ _ _ _ (Ne.symm h12)]
      rfl
    have e2 := add_photo_fresh hashFn
      (add_photo hashFn initStorage i1 fp1 o1).2 i2 fp2 o2 f2
    have f3 : findA (hashFn i3)
        (add_photo hashFn (add_photo hashFn initStorage i1 fp1 o1).2
          i2 fp2 o2).2.hash_to_name = none := by
      rw [e2, e1]
      dsimp only
      rw [findA_dictInsert_ne _ _ _ _ (Ne.symm h23),
        findA_dictInsert_ne _ _ _ _ (Ne.symm h13)]
      rfl
    have e3 := add_photo_fresh hashFn
      (add_photo hashFn (add_photo hashFn initStorage i1 fp1 o1).2
        i2 fp2 o2).2 i3 fp3 o3 f3
    rw [e3, e2, e1]
    dsimp only
    simp [pop_next_photo, initStorage]
  · intro s image fp ofk n hfind
    rw [add_photo_dup hashFn s image fp ofk n hfind]

/-- Witness for C4 at a concrete input. -/
theorem c4_queue_fifo_witness :
    ((fun n => n) 0 ≠ (fun n : Nat => n) 1 ∧ (fun n => n) 0 ≠ (fun n : Nat => n) 2 ∧
      (fun n => n) 1 ≠ (fun n : Nat => n) 2) ∧
    ((pop_next_photo (add_photo (fun n => n)
        (add_photo (fun n => n) (add_photo (fun n => n) initStorage 0 "a" none).2
          1 "b" none).2 2 "c" none).2).1 =
      some (add_photo (fun n => n) initStorage 0 "a" none).1.1 ∧
    (pop_next_photo (pop_next_photo (add_photo (fun n => n)
        (add_photo (fun n => n) (add_photo (fun n => n) initStorage 0 "a" none).2
          1 "b" none).2 2 "c" none).2).2).1 =
      some (add_photo (fun n => n) (add_photo (fun n => n) initStorage 0 "a" none).2
        1 "b" none).1.1 ∧
    (pop_next_photo (pop_next_photo (pop_next_photo (add_photo (fun n => n)
        (add_photo (fun n => n) (add_photo (fun n => n) initStorage 0 "a" none).2
          1 "b" none).2 2 "c" none).2).2).2).1 =
      some (add_photo (fun n => n)
        (add_photo (fun n => n) (add_photo (fun n => n) initStorage 0 "a" none).2
          1 "b" none).2 2 "c" none).1.1 ∧
    (pop_next_photo (pop_next_photo (pop_next_photo (pop_next_photo
        (add_photo (fun n => n) (add_photo (fun n => n)
          (add_photo (fun n => n) initStorage 0 "a" none).2 1 "b" none).2
          2 "c" none).2).2).2).2).1 = none) ∧
    ∀ (s : PhotoMemoryStorage) (image : Nat) (fp : String)
      (ofk : Option String) (n : String),
      findA ((fun n => n) image) s.hash_to_name = some n →
      (add_photo (fun n => n) s image fp ofk).2.photo_queue = s.photo_queue :=
  ⟨⟨by decide, by decide, by decide⟩,
    c4_queue_fifo (fun n => n) 0 1 2 "a" "b" "c" none none none
      (by decide) (by decide) (by decide)⟩

/-- C10 (store consistency invariant): after any operation sequence,
`total_photos = unique_hashes`, every queued name maps to a stored photo,
and `queue_length ≤ total_photos`. -/
theorem c10_store_consistency (hashFn : Nat → Nat) (ops : List StorageOp) :
    (get_stats (runOps hashFn ops)).total_photos =
      (get_stats (runOps hashFn ops)).unique_hashes ∧
    (∀ n ∈ (runOps hashFn ops).photo_queue,
      ∃ pd, findA n (runOps hashFn ops).photos = some pd) ∧
    (get_stats (runOps hashFn ops)).queue_length ≤
      (get_stats (runOps hashFn ops)).total_photos := by
  obtain ⟨hkeys, hhash, hq, hnd⟩ := storeInv_runOps hashFn ops
  set s := runOps hashFn ops with hs
  have hlen : s.photos.length = s.counter := by
    have := congrArg List.length hkeys
    simpa using this
  refine ⟨?_, ?_, ?_⟩
  · simp [get_stats, hlen, hhash]
  · intro n hn
    have hmem := hq n hn
    rcases hfind : findA n s.photos with _ | pd
    · rw [findA_eq_none_iff] at hfind
      exact absurd hmem hfind
    · exact ⟨pd, rfl⟩
  · have h1 : s.photo_queue.length = s.photo_queue.toFinset.card :=
      (List.toFinset_card_of_nodup hnd).symm
    have h2 : s.photo_queue.toFinset ⊆ (s.photos.map Prod.fst).toFinset := by
      intro x hx
      rw [List.mem_toFinset] at hx ⊢
      exact hq x hx
    have h3 := Finset.card_le_card h2
    have h4 : (s.photos.map Prod.fst).toFinset.card ≤
        (s.photos.map Prod.fst).length := List.toFinset_card_le _
    simp only [get_stats]
    calc s.photo_queue.length
        = s.photo_queue.toFinset.card := h1
      _ ≤ (s.photos.map Prod.fst).toFinset.card := h3
      _ ≤ (s.photos.map Prod.fst).length := h4
      _ = s.photos.length := List.length_map _ _

/-! ## Storyboard and caption theorems -/

theorem optimize_scene_count_bounds (l : List Scene) :
    3 ≤ (optimize_scene_count l).length ∧
      (optimize_scene_count l).length ≤ 5 := by
  unfold optimize_scene_count min_scenes max_scenes
  split
  · simp only [List.length_append, List.length_replicate]
    omega
  · split
    · simp only [List.length_take]
      omega
    · omega

/-- C3 (storyboard bounds): for every transcript (including the empty
string) and every photo description, `generate_from_conversation` returns
between 3 and 5 scenes inclusive. -/
theorem c3_storyboard_bounds (transcript photo_analysis : String) :
    3 ≤ (generate_from_conversation transcript photo_analysis).length ∧
    (generate_from_conversation transcript photo_analysis).length ≤ 5 := by
  have e : generate_from_conversation transcript photo_analysis =
      optimize_scene_count (create_scenes
        (extract_emotional_moments transcript)
        (identify_themes transcript photo_analysis) photo_analysis) := rfl
  rw [e]
  exact optimize_scene_count_bounds _

/-- C8 counterexample: on empty transcript and empty description,
`generate_from_conversation` does not return the fixed fallback sequence of
`_get_fallback_scenes` (it returns the padding filler scenes instead). -/
theorem c8_counterexample :
    generate_from_conversation "" "" ≠ get_fallback_scenes := by
  intro h
  exact absurd (congrArg (List.map Scene.caption) h) (by decide)

/-- C8 amended: for empty or too-short input — no emotional moments, no
themes, empty description — `generate_from_conversation` returns three
copies of the padding filler scene of `_optimize_scene_count`, not the
`_get_fallback_scenes` triple (that one is returned only when an internal
exception occurs, which the total embedded pipeline never raises). -/
theorem c8_degradation_amended (t pa : String)
    (hm : extract_emotional_moments t = [])
    (hth : identify_themes t pa = []) (hpa : pa = "") :
    generate_from_conversation t pa =
      [fillerScene, fillerScene, fillerScene] := by
  subst hpa
  have e : generate_from_conversation t "" =
      optimize_scene_count (create_scenes (extract_emotional_moments t)
        (identify_themes t "") "") := rfl
  rw [e, hm, hth]
  rfl

/-- Witness for the amended C8 at the concrete empty input. -/
theorem c8_degradation_amended_witness :
    (extract_emotional_moments "" = [] ∧ identify_themes "" "" = [] ∧
      ("" : String) = "") ∧
    generate_from_conversation "" "" =
      [fillerScene, fillerScene, fillerScene] :=
  ⟨⟨rfl, rfl, rfl⟩, c8_degradation_amended "" "" rfl rfl rfl⟩

theorem fallback_captions_length : fallback_captions.length = 5 := rfl

theorem fallbackLoop_length_ge (count : Nat) (acc : List String) :
    count ≤ (fallbackLoop count acc).length := by
  suffices h : ∀ (k : Nat) (acc : List String), count - acc.length ≤ k →
      count ≤ (fallbackLoop count acc).length from
    h count acc (Nat.sub_le _ _)
  intro k
  induction k with
  | zero =>
    intro acc hle
    rw [fallbackLoop, dif_neg (by omega)]
    omega
  | succ k ih =>
    intro acc hle
    by_cases h : acc.length < count
    · rw [fallbackLoop, dif_pos h]
      apply ih
      simp only [List.length_append, List.length_take, fallback_captions,
        List.length_cons, List.length_nil]
      omega
    · rw [fallbackLoop, dif_neg h]
      omega

theorem get_fallback_captions_length (count : Nat) :
    (get_fallback_captions count).length = count := by
  unfold get_fallback_captions
  split
  · rename_i h
    rw [fallback_captions_length] at h
    simp only [List.length_take, fallback_captions_length]
    omega
  · have := fallbackLoop_length_ge count fallback_captions
    simp only [List.length_take]
    omega

theorem parse_caption_response_length (t : String) (n : Nat) (h : n ≤ 5) :
    (parse_caption_response t n).length = n := by
  unfold parse_caption_response
  split
  · exact get_fallback_captions_length n
  · generalize parsedCaptions t = cs
    dsimp only
    split
    · rename_i hlt
      simp only [List.length_append, List.length_take,
        fallback_captions_length]
      omega
    · split
      · rename_i hgt
        simp only [List.length_take]
        omega
      · omega

/-- C2 counterexample: with six scenes and a model response whose single
line exceeds the 12-word tolerance, `generate_captions_for_scenes` returns
5 captions, not `len(scenes) = 6`: the padding slice
`fallback_captions[:needed]` cannot supply more than 5 items and does not
cycle. -/
theorem c2_counterexample :
    (generate_captions_for_scenes (Except.ok "w w w w w w w w w w w w w")
        (List.replicate 6 fillerScene)).length ≠
      (List.replicate 6 fillerScene).length := by
  intro h
  rw [show (generate_captions_for_scenes
      (Except.ok "w w w w w w w w w w w w w")
      (List.replicate 6 fillerScene)).length = 5 from rfl] at h
  simp at h

/-- C2 amended: `generate_captions_for_scenes` returns exactly
`len(scenes)` captions whenever `len(scenes) ≤ 5` (always true for
storyboard scene lists), and for any scene count when the model call raised
or the response text is empty (those paths go through the cycling
`_get_fallback_captions`); with a nonempty response, padding draws at most
the 5 fallback captions without cycling. -/
theorem c2_caption_count_amended (response : Except Unit String)
    (scenes : List Scene)
    (h : scenes.length ≤ 5 ∨ response = Except.error () ∨
      response = Except.ok "") :
    (generate_captions_for_scenes response scenes).length = scenes.length := by
  match response with
  | .error () => exact get_fallback_captions_length _
  | .ok t =>
    rcases h with h | h | h
    · exact parse_caption_response_length t scenes.length h
    · cases h
    · have ht : t = "" := by injection h
      subst ht
      show (parse_caption_response "" scenes.length).length = scenes.length
      unfold parse_caption_response
      rw [if_pos rfl]
      exact get_fallback_captions_length _

/-- Witness for the amended C2 at a concrete input. -/
theorem c2_caption_count_amended_witness :
    ((List.replicate 3 fillerScene).length ≤ 5 ∨
      (Except.ok "one fine line" : Except Unit String) = Except.error () ∨
      (Except.ok "one fine line" : Except Unit String) = Except.ok "") ∧
    (generate_captions_for_scenes (Except.ok "one fine line")
      (List.replicate 3 fillerScene)).length =
      (List.replicate 3 fillerScene).length :=
  ⟨Or.inl (by decide),
    c2_caption_count_amended (Except.ok "one fine line")
      (List.replicate 3 fillerScene) (Or.inl (by decide))⟩

/-! ## Frame renderer and video assembler theorems -/

theorem renderFrames_error (step : Nat → String → Except Unit String) :
    ∀ (start : Nat) (cs : List String),
      (∃ j : Fin cs.length, step (start + j) (cs.get j) = .error ()) →
      renderFrames step start cs = .error () := by
  intro start cs
  induction cs generalizing start with
  | nil =>
    rintro ⟨⟨j, hj⟩, _⟩
    simp only [List.length_nil] at hj
    exact absurd hj (Nat.not_lt_zero j)
  | cons c rest ih =>
    rintro ⟨⟨j, hj⟩, hstep⟩
    simp only [List.length_cons] at hj
    cases j with
    | zero =>
      simp only [List.get, Nat.add_zero] at hstep
      unfold renderFrames
      rw [hstep]
      rfl
    | succ j =>
      have hrest : renderFrames step (start + 1) rest = .error () := by
        apply ih (start + 1)
        refine ⟨⟨j, by omega⟩, ?_⟩
        have : start + 1 + j = start + (j + 1) := by omega
        rw [this]
        exact hstep
      unfold renderFrames
      cases hc : step start c with
      | error e => rfl
      | ok v =>
        show (Except.ok v >>= fun p =>
          renderFrames step (start + 1) rest >>= fun ps =>
            pure (p :: ps)) = Except.error ()
        rw [hrest]
        rfl

/-- C5 (renderer fail-closed): if rendering any caption raises, the whole
`create_captioned_frames` call returns the empty list, never a partial
list of frame paths. -/
theorem c5_renderer_fail_closed (prepare : Except Unit Unit)
    (step : Nat → String → Except Unit String) (captions : List String)
    (h : ∃ i : Fin captions.length, step i (captions.get i) = .error ()) :
    create_captioned_frames prepare step captions = [] := by
  obtain ⟨⟨i, hi⟩, hstep⟩ := h
  have hrf : renderFrames step 0 captions = .error () := by
    apply renderFrames_error step 0 captions
    refine ⟨⟨i, hi⟩, ?_⟩
    rw [Nat.zero_add]
    exact hstep
  unfold create_captioned_frames
  cases prepare with
  | error e => rfl
  | ok u =>
    show (match (Except.ok u >>= fun _ => renderFrames step 0 captions :
        Except Unit (List String)) with
      | .ok frame_paths => frame_paths
      | .error _ => []) = []
    rw [show (Except.ok u >>= fun _ => renderFrames step 0 captions :
        Except Unit (List String)) = renderFrames step 0 captions from rfl]
    rw [hrf]

/-- Witness for C5 at a concrete input: a failure at the second of three
captions yields the empty list, not a 1-element one. -/
theorem c5_renderer_fail_closed_witness :
    (∃ i : Fin (["a", "b", "c"] : List String).length,
      (fun (i : Nat) (_ : String) =>
        if i == 1 then (Except.error () : Except Unit String)
        else Except.ok "p") i ((["a", "b", "c"] : List String).get i) =
        .error ()) ∧
    create_captioned_frames (Except.ok ())
      (fun (i : Nat) (_ : String) =>
        if i == 1 then (Except.error () : Except Unit String)
        else Except.ok "p") ["a", "b", "c"] = [] :=
  ⟨⟨⟨1, by decide⟩, rfl⟩,
    c5_renderer_fail_closed (Except.ok ())
      (fun (i : Nat) (_ : String) =>
        if i == 1 then (Except.error () : Except Unit String)
        else Except.ok "p") ["a", "b", "c"] ⟨⟨1, by decide⟩, rfl⟩⟩

/-- C6 counterexample: when the encoder times out, the edit-list descriptor
file created by the call is not deleted — `subprocess.run` raises before
the `_cleanup_temp_file(input_list_path)` line — so cleanup is not
guaranteed regardless of outcome. -/
theorem c6_counterexample :
    leftover (create_memory_video
      { inputListOk := true, encResult := .timedOut false,
        uploadOk := true, presign := .returned none }
      ["f"] [fillerScene]) ≠ [] := by decide

/-- C6 amended: the temp files left behind by `create_memory_video` are
exactly: none on the fully handled paths (encoder success followed by an
upload attempt whose presigned-URL step does not raise, or an upload
failure; encoder nonzero exit with no partial output file), the partial
encoded output on a nonzero exit that wrote one, the encoded output when
`generate_presigned_url` raises, and the edit-list descriptor (plus any
partial output) on an encoder timeout. -/
theorem c6_cleanup_amended (env : VideoEnv) (frame_paths : List String)
    (scenes : List Scene) (hne : frame_paths ≠ [])
    (hok : env.inputListOk = true) :
    leftover (create_memory_video env frame_paths scenes) =
      (match env.encResult with
       | .success =>
           if env.uploadOk = true ∧ env.presign = .raised then
             [TFile.encodedVideo]
           else []
       | .failExit ow => if ow then [TFile.encodedVideo] else []
       | .timedOut ow =>
           [TFile.inputList] ++ (if ow then [TFile.encodedVideo] else [])) := by
  obtain ⟨ilok, enc, up, pre⟩ := env
  simp only at hok
  subst hok
  cases enc with
  | success =>
    cases up <;> rcases pre with _ | url <;>
      simp [create_memory_video, create_video_with_transitions, leftover,
        hne]
  | failExit ow =>
    cases ow <;> cases up <;> rcases pre with _ | url <;>
      simp [create_memory_video, create_video_with_transitions, leftover,
        hne]
  | timedOut ow =>
    cases ow <;> cases up <;> rcases pre with _ | url <;>
      simp [create_memory_video, create_video_with_transitions, leftover,
        hne]

/-- Witness for the amended C6 at a concrete input (encoder timeout). -/
theorem c6_cleanup_amended_witness :
    ((["f"] : List String) ≠ [] ∧
      (VideoEnv.mk true (.timedOut false) true .raised).inputListOk = true) ∧
    leftover (create_memory_video
        (VideoEnv.mk true (.timedOut false) true .raised) ["f"]
        [fillerScene]) =
      (match (VideoEnv.mk true (.timedOut false) true .raised).encResult with
       | .success =>
           if (VideoEnv.mk true (.timedOut false) true .raised).uploadOk =
               true ∧
             (VideoEnv.mk true (.timedOut false) true .raised).presign =
               .raised then
             [TFile.encodedVideo]
           else []
       | .failExit ow => if ow then [TFile.encodedVideo] else []
       | .timedOut ow =>
           [TFile.inputList] ++ (if ow then [TFile.encodedVideo] else [])) :=
  ⟨⟨by decide, rfl⟩,
    c6_cleanup_amended (VideoEnv.mk true (.timedOut false) true .raised)
      ["f"] [fillerScene] (by decide) rfl⟩

/-- C7 (edit-list construction): with nonempty frame and scene lists of
unequal length, `create_memory_video` truncates both to the shorter length
and writes, in order, a `file` and a `duration scene.duration` entry per
remaining (frame, scene) pair, then the final remaining frame once more
with no duration entry. -/
theorem c7_edit_list (env : VideoEnv) (frame_paths : List String)
    (scenes : List Scene) (h1 : frame_paths ≠ []) (h2 : scenes ≠ [])
    (h3 : frame_paths.length ≠ scenes.length)
    (h4 : env.inputListOk = true) :
    (create_memory_video env frame_paths scenes).editList =
      (((frame_paths.take (min frame_paths.length scenes.length)).zip
          (scenes.take (min frame_paths.length scenes.length))).map
        (fun fs =>
          [FEntry.file (escapePath fs.1), FEntry.dur fs.2.duration])).flatten
      ++ [FEntry.file (escapePath
          ((frame_paths.take
            (min frame_paths.length scenes.length)).getLastD ""))] := by
  have hl1 : 0 < frame_paths.length := List.length_pos.mpr h1
  have hl2 : 0 < scenes.length := List.length_pos.mpr h2
  have ht1 : frame_paths.take (min frame_paths.length scenes.length) ≠ [] := by
    rw [Ne, List.take_eq_nil_iff]
    push_neg
    exact ⟨by omega, h1⟩
  have ht2 : scenes.take (min frame_paths.length scenes.length) ≠ [] := by
    rw [Ne, List.take_eq_nil_iff]
    push_neg
    exact ⟨by omega, h2⟩
  have key : create_ffmpeg_input_list
      (frame_paths.take (min frame_paths.length scenes.length))
      (scenes.take (min frame_paths.length scenes.length)) =
      (((frame_paths.take (min frame_paths.length scenes.length)).zip
          (scenes.take (min frame_paths.length scenes.length))).map
        (fun fs =>
          [FEntry.file (escapePath fs.1), FEntry.dur fs.2.duration])).flatten
      ++ [FEntry.file (escapePath
          ((frame_paths.take
            (min frame_paths.length scenes.length)).getLastD ""))] := by
    unfold create_ffmpeg_input_list
    rw [if_pos ⟨ht1, ht2⟩]
  obtain ⟨ilok, enc, up, pre⟩ := env
  simp only at h4
  subst h4
  cases enc with
  | success =>
    cases up <;> rcases pre with _ | url <;>
      simp [create_memory_video, create_video_with_transitions, h1, h3, key]
  | failExit ow =>
    cases ow <;> cases up <;> rcases pre with _ | url <;>
      simp [create_memory_video, create_video_with_transitions, h1, h3, key]
  | timedOut ow =>
    cases ow <;> cases up <;> rcases pre with _ | url <;>
      simp [create_memory_video, create_video_with_transitions, h1, h3, key]

/-- Witness for C7 at a concrete input (2 frames, 1 scene). -/
theorem c7_edit_list_witness :
    ((["f1", "f2"] : List String) ≠ [] ∧
      ([fillerScene] : List Scene) ≠ [] ∧
      (["f1", "f2"] : List String).length ≠
        ([fillerScene] : List Scene).length ∧
      (VideoEnv.mk true .success true (.returned none)).inputListOk = true) ∧
    (create_memory_video (VideoEnv.mk true .success true (.returned none))
        ["f1", "f2"] [fillerScene]).editList =
      ((((["f1", "f2"] : List String).take
          (min (["f1", "f2"] : List String).length
            ([fillerScene] : List Scene).length)).zip
          (([fillerScene] : List Scene).take
            (min (["f1", "f2"] : List String).length
              ([fillerScene] : List Scene).length))).map
        (fun fs =>
          [FEntry.file (escapePath fs.1), FEntry.dur fs.2.duration])).flatten
      ++ [FEntry.file (escapePath
          (((["f1", "f2"] : List String).take
            (min (["f1", "f2"] : List String).length
              ([fillerScene] : List Scene).length)).getLastD ""))] :=
  ⟨⟨by decide, by decide, by decide, rfl⟩,
    c7_edit_list (VideoEnv.mk true .success true (.returned none))
      ["f1", "f2"] [fillerScene] (by decide) (by decide) (by decide) rfl⟩

/-! ## Lock-model lemmas -/

theorem threadStep_start_blocked (hashFn : Nat → Nat) (c1 c2 : AddCall)
    (tid : Bool) (cfg : Config)
    (hpc : (if tid then cfg.pc2 else cfg.pc1) = .start) (o : Bool)
    (hlock : cfg.lock = some o) :
    threadStep hashFn c1 c2 tid cfg = cfg := by
  simp only [threadStep, hpc, hlock]

theorem threadStep_done_noop (hashFn : Nat → Nat) (c1 c2 : AddCall)
    (tid : Bool) (cfg : Config) (r : String × Bool)
    (hpc : (if tid then cfg.pc2 else cfg.pc1) = .done r) :
    threadStep hashFn c1 c2 tid cfg = cfg := by
  simp only [threadStep, hpc]

theorem csShape_step (hashFn : Nat → Nat) (c1 c2 : AddCall) (tid : Bool)
    (entry : PhotoMemoryStorage) (otherPc : TPc) (cfg : Config)
    (hcs : csShape hashFn (if tid then c2 else c1) tid entry otherPc cfg) :
    csShape hashFn (if tid then c2 else c1) tid entry otherPc
        (threadStep hashFn c1 c2 tid cfg) ∨
      threadStep hashFn c1 c2 tid cfg =
        { store := (addCallAtomic hashFn entry (if tid then c2 else c1)).2,
          lock := none,
          pc1 := if tid then otherPc else
            .done (addCallAtomic hashFn entry (if tid then c2 else c1)).1,
          pc2 := if tid then
            .done (addCallAtomic hashFn entry (if tid then c2 else c1)).1
            else otherPc } := by
  cases tid with
  | false =>
    obtain ⟨pc, st, hin, rfl⟩ := hcs
    cases pc with
    | start => exact hin.elim
    | done r => exact hin.elim
    | lookup =>
      replace hin : st = entry := hin
      subst hin
      rcases hfind : findA (hashFn c1.image) st.hash_to_name with _ | n
      · left
        refine ⟨.alloc, st, ⟨rfl, hfind⟩, ?_⟩
        simp [threadStep, hfind]
      · left
        refine ⟨.unlock (n, false), st, ⟨?_, ?_⟩, ?_⟩
        · show st = (add_photo hashFn st c1.image c1.file_path
            c1.original_file_key).2
          rw [add_photo_dup hashFn st c1.image c1.file_path
            c1.original_file_key n hfind]
        · show (n, false) = (add_photo hashFn st c1.image c1.file_path
            c1.original_file_key).1
          rw [add_photo_dup hashFn st c1.image c1.file_path
            c1.original_file_key n hfind]
        · simp [threadStep, hfind]
    | alloc =>
      obtain ⟨hst, hfind⟩ := hin
      subst hst
      left
      refine ⟨.insertP (photoName st.counter),
        { st with counter := st.counter + 1 }, ⟨hfind, rfl, rfl⟩, ?_⟩
      simp [threadStep]
    | insertP name =>
      obtain ⟨hfind, hname, hst⟩ := hin
      subst hname
      subst hst
      left
      refine ⟨.enqueue (photoName entry.counter), _, ⟨hfind, rfl, rfl⟩, ?_⟩
      simp [threadStep]
    | enqueue name =>
      obtain ⟨hfind, hname, hst⟩ := hin
      subst hname
      subst hst
      left
      refine ⟨.insertH (photoName entry.counter), _, ⟨hfind, rfl, rfl⟩, ?_⟩
      simp [threadStep]
    | insertH name =>
      obtain ⟨hfind, hname, hst⟩ := hin
      subst hname
      subst hst
      left
      refine ⟨.unlock (photoName entry.counter, true),
        { photos := dictInsert (photoName entry.counter)
            (mkPhotoData hashFn c1 (photoName entry.counter)) entry.photos
          photo_queue := entry.photo_queue ++ [photoName entry.counter]
          hash_to_name := dictInsert (hashFn c1.image)
            (photoName entry.counter) entry.hash_to_name
          counter := entry.counter + 1 }, ⟨?_, ?_⟩, ?_⟩
      · show _ = (add_photo hashFn entry c1.image c1.file_path
          c1.original_file_key).2
        rw [add_photo_fresh hashFn entry c1.image c1.file_path
          c1.original_file_key hfind]
        rfl
      · show (photoName entry.counter, true) =
          (add_photo hashFn entry c1.image c1.file_path
            c1.original_file_key).1
        rw [add_photo_fresh hashFn entry c1.image c1.file_path
          c1.original_file_key hfind]
      · simp [threadStep]
    | unlock res =>
      obtain ⟨hst, hres⟩ := hin
      subst hst
      subst hres
      right
      simp [threadStep]
  | true =>
    obtain ⟨pc, st, hin, rfl⟩ := hcs
    cases pc with
    | start => exact hin.elim
    | done r => exact hin.elim
    | lookup =>
      replace hin : st = entry := hin
      subst hin
      rcases hfind : findA (hashFn c2.image) st.hash_to_name with _ | n
      · left
        refine ⟨.alloc, st, ⟨rfl, hfind⟩, ?_⟩
        simp [threadStep, hfind]
      · left
        refine ⟨.unlock (n, false), st, ⟨?_, ?_⟩, ?_⟩
        · show st = (add_photo hashFn st c2.image c2.file_path
            c2.original_file_key).2
          rw [add_photo_dup hashFn st c2.image c2.file_path
            c2.original_file_key n hfind]
        · show (n, false) = (add_photo hashFn st c2.image c2.file_path
            c2.original_file_key).1
          rw [add_photo_dup hashFn st c2.image c2.file_path
            c2.original_file_key n hfind]
        · simp [threadStep, hfind]
    | alloc =>
      obtain ⟨hst, hfind⟩ := hin
      subst hst
      left
      refine ⟨.insertP (photoName st.counter),
        { st with counter := st.counter + 1 }, ⟨hfind, rfl, rfl⟩, ?_⟩
      simp [threadStep]
    | insertP name =>
      obtain ⟨hfind, hname, hst⟩ := hin
      subst hname
      subst hst
      left
      refine ⟨.enqueue (photoName entry.counter), _, ⟨hfind, rfl, rfl⟩, ?_⟩
      simp [threadStep]
    | enqueue name =>
      obtain ⟨hfind, hname, hst⟩ := hin
      subst hname
      subst hst
      left
      refine ⟨.insertH (photoName entry.counter), _, ⟨hfind, rfl, rfl⟩, ?_⟩
      simp [threadStep]
    | insertH name =>
      obtain ⟨hfind, hname, hst⟩ := hin
      subst hname
      subst hst
      left
      refine ⟨.unlock (photoName entry.counter, true),
        { photos := dictInsert (photoName entry.counter)
            (mkPhotoData hashFn c2 (photoName entry.counter)) entry.photos
          photo_queue := entry.photo_queue ++ [photoName entry.counter]
          hash_to_name := dictInsert (hashFn c2.image)
            (photoName entry.counter) entry.hash_to_name
          counter := entry.counter + 1 }, ⟨?_, ?_⟩, ?_⟩
      · show _ = (add_photo hashFn entry c2.image c2.file_path
          c2.original_file_key).2
        rw [add_photo_fresh hashFn entry c2.image c2.file_path
          c2.original_file_key hfind]
        rfl
      · show (photoName entry.counter, true) =
          (add_photo hashFn entry c2.image c2.file_path
            c2.original_file_key).1
        rw [add_photo_fresh hashFn entry c2.image c2.file_path
          c2.original_file_key hfind]
      · simp [threadStep]
    | unlock res =>
      obtain ⟨hst, hres⟩ := hin
      subst hst
      subst hres
      right
      simp [threadStep]

theorem reachInv_step (hashFn : Nat → Nat) (c1 c2 : AddCall)
    (s0 : PhotoMemoryStorage) (cfg : Config) (tid : Bool)
    (h : ReachInv hashFn c1 c2 s0 cfg) :
    ReachInv hashFn c1 c2 s0 (threadStep hashFn c1 c2 tid cfg) := by
  cases h with
  | init =>
    cases tid with
    | false =>
      refine .cs1 _ ⟨.lookup, s0, rfl, ?_⟩
      simp [threadStep, initConfig]
    | true =>
      refine .cs2 _ ⟨.lookup, s0, rfl, ?_⟩
      simp [threadStep, initConfig]
  | cs1 cfg h =>
    cases tid with
    | false =>
      rcases csShape_step hashFn c1 c2 false s0 .start cfg h with h2 | h2
      · exact .cs1 _ h2
      · rw [h2]
        exact .done1
    | true =>
      obtain ⟨pc, st, hin, rfl⟩ := h
      show ReachInv hashFn c1 c2 s0 (threadStep hashFn c1 c2 true
        { store := st, lock := some false, pc1 := pc, pc2 := .start })
      rw [threadStep_start_blocked hashFn c1 c2 true
        { store := st, lock := some false, pc1 := pc, pc2 := .start } rfl
        false rfl]
      exact .cs1 _ ⟨pc, st, hin, rfl⟩
  | cs2 cfg h =>
    cases tid with
    | true =>
      rcases csShape_step hashFn c1 c2 true s0 .start cfg h with h2 | h2
      · exact .cs2 _ h2
      · rw [h2]
        exact .done2
    | false =>
      obtain ⟨pc, st, hin, rfl⟩ := h
      show ReachInv hashFn c1 c2 s0 (threadStep hashFn c1 c2 false
        { store := st, lock := some true, pc1 := .start, pc2 := pc })
      rw [threadStep_start_blocked hashFn c1 c2 false
        { store := st, lock := some true, pc1 := .start, pc2 := pc } rfl
        true rfl]
      exact .cs2 _ ⟨pc, st, hin, rfl⟩
  | done1 =>
    cases tid with
    | false =>
      rw [threadStep_done_noop hashFn c1 c2 false
        { store := (addCallAtomic hashFn s0 c1).2, lock := none,
          pc1 := .done (addCallAtomic hashFn s0 c1).1, pc2 := .start }
        (addCallAtomic hashFn s0 c1).1 rfl]
      exact .done1
    | true =>
      refine .cs21 _ ⟨.lookup, (addCallAtomic hashFn s0 c1).2, rfl, ?_⟩
      simp [threadStep]
  | done2 =>
    cases tid with
    | true =>
      rw [threadStep_done_noop hashFn c1 c2 true
        { store := (addCallAtomic hashFn s0 c2).2, lock := none,
          pc1 := .start, pc2 := .done (addCallAtomic hashFn s0 c2).1 }
        (addCallAtomic hashFn s0 c2).1 rfl]
      exact .done2
    | false =>
      refine .cs12 _ ⟨.lookup, (addCallAtomic hashFn s0 c2).2, rfl, ?_⟩
      simp [threadStep]
  | cs21 cfg h =>
    cases tid with
    | true =>
      rcases csShape_step hashFn c1 c2 true (addCallAtomic hashFn s0 c1).2
          (.done (addCallAtomic hashFn s0 c1).1) cfg h with h2 | h2
      · exact .cs21 _ h2
      · rw [h2]
        exact .done12
    | false =>
      obtain ⟨pc, st, hin, rfl⟩ := h
      show ReachInv hashFn c1 c2 s0 (threadStep hashFn c1 c2 false
        { store := st, lock := some true,
          pc1 := .done (addCallAtomic hashFn s0 c1).1, pc2 := pc })
      rw [threadStep_done_noop hashFn c1 c2 false
        { store := st, lock := some true,
          pc1 := .done (addCallAtomic hashFn s0 c1).1, pc2 := pc }
        (addCallAtomic hashFn s0 c1).1 rfl]
      exact .cs21 _ ⟨pc, st, hin, rfl⟩
  | cs12 cfg h =>
    cases tid with
    | false =>
      rcases csShape_step hashFn c1 c2 false (addCallAtomic hashFn s0 c2).2
          (.done (addCallAtomic hashFn s0 c2).1) cfg h with h2 | h2
      · exact .cs12 _ h2
      · rw [h2]
        exact .done21
    | true =>
      obtain ⟨pc, st, hin, rfl⟩ := h
      show ReachInv hashFn c1 c2 s0 (threadStep hashFn c1 c2 true
        { store := st, lock := some false, pc1 := pc,
          pc2 := .done (addCallAtomic hashFn s0 c2).1 })
      rw [threadStep_done_noop hashFn c1 c2 true
        { store := st, lock := some false, pc1 := pc,
          pc2 := .done (addCallAtomic hashFn s0 c2).1 }
        (addCallAtomic hashFn s0 c2).1 rfl]
      exact .cs12 _ ⟨pc, st, hin, rfl⟩
  | done12 =>
    cases tid with
    | false =>
      rw [threadStep_done_noop hashFn c1 c2 false
        { store := (addCallAtomic hashFn (addCallAtomic hashFn s0 c1).2 c2).2,
          lock := none,
          pc1 := .done (addCallAtomic hashFn s0 c1).1,
          pc2 := .done (addCallAtomic hashFn
            (addCallAtomic hashFn s0 c1).2 c2).1 }
        (addCallAtomic hashFn s0 c1).1 rfl]
      exact .done12
    | true =>
      rw [threadStep_done_noop hashFn c1 c2 true
        { store := (addCallAtomic hashFn (addCallAtomic hashFn s0 c1).2 c2).2,
          lock := none,
          pc1 := .done (addCallAtomic hashFn s0 c1).1,
          pc2 := .done (addCallAtomic hashFn
            (addCallAtomic hashFn s0 c1).2 c2).1 }
        (addCallAtomic hashFn (addCallAtomic hashFn s0 c1).2 c2).1 rfl]
      exact .done12
  | done21 =>
    cases tid with
    | false =>
      rw [threadStep_done_noop hashFn c1 c2 false
        { store := (addCallAtomic hashFn (addCallAtomic hashFn s0 c2).2 c1).2,
          lock := none,
          pc1 := .done (addCallAtomic hashFn
            (addCallAtomic hashFn s0 c2).2 c1).1,
          pc2 := .done (addCallAtomic hashFn s0 c2).1 }
        (addCallAtomic hashFn (addCallAtomic hashFn s0 c2).2 c1).1 rfl]
      exact .done21
    | true =>
      rw [threadStep_done_noop hashFn c1 c2 true
        { store := (addCallAtomic hashFn (addCallAtomic hashFn s0 c2).2 c1).2,
          lock := none,
          pc1 := .done (addCallAtomic hashFn
            (addCallAtomic hashFn s0 c2).2 c1).1,
          pc2 := .done (addCallAtomic hashFn s0 c2).1 }
        (addCallAtomic hashFn s0 c2).1 rfl]
      exact .done21

theorem reachInv_exec (hashFn : Nat → Nat) (c1 c2 : AddCall)
    (s0 : PhotoMemoryStorage) (sched : List Bool) :
    ReachInv hashFn c1 c2 s0
      (execSched hashFn c1 c2 (initConfig s0) sched) := by
  suffices h : ∀ (cfg : Config), ReachInv hashFn c1 c2 s0 cfg →
      ReachInv hashFn c1 c2 s0 (execSched hashFn c1 c2 cfg sched) from
    h (initConfig s0) .init
  induction sched with
  | nil => intro cfg h; exact h
  | cons t rest ih =>
    intro cfg h
    exact ih (threadStep hashFn c1 c2 t cfg)
      (reachInv_step hashFn c1 c2 s0 cfg t h)

theorem addCallAtomic_seq_same_name (hashFn : Nat → Nat)
    (s : PhotoMemoryStorage) (c cp : AddCall)
    (h : hashFn c.image = hashFn cp.image) :
    (addCallAtomic hashFn (addCallAtomic hashFn s c).2 cp).1.1 =
      (addCallAtomic hashFn s c).1.1 := by
  unfold addCallAtomic
  rcases hf : findA (hashFn c.image) s.hash_to_name with _ | n
  · rw [add_photo_fresh hashFn s c.image c.file_path c.original_file_key hf]
    dsimp only
    rw [add_photo_dup hashFn _ cp.image cp.file_path cp.original_file_key
      (photoName s.counter)
      (by rw [← h]; exact findA_dictInsert_self _ _ _)]
  · rw [add_photo_dup hashFn s c.image c.file_path c.original_file_key n hf]
    dsimp only
    rw [add_photo_dup hashFn s cp.image cp.file_path cp.original_file_key n
      (by rw [← h]; exact hf)]

theorem addCallAtomic_seq_queue (hashFn : Nat → Nat)
    (s : PhotoMemoryStorage) (c cp : AddCall)
    (hne : hashFn c.image ≠ hashFn cp.image)
    (hf1 : findA (hashFn c.image) s.hash_to_name = none)
    (hf2 : findA (hashFn cp.image) s.hash_to_name = none) :
    (addCallAtomic hashFn s c).1.1 ∈
      (addCallAtomic hashFn (addCallAtomic hashFn s c).2 cp).2.photo_queue ∧
    (addCallAtomic hashFn (addCallAtomic hashFn s c).2 cp).1.1 ∈
      (addCallAtomic hashFn (addCallAtomic hashFn s c).2 cp).2.photo_queue := by
  unfold addCallAtomic
  rw [add_photo_fresh hashFn s c.image c.file_path c.original_file_key hf1]
  dsimp only
  rw [add_photo_fresh hashFn _ cp.image cp.file_path cp.original_file_key
    (by rw [findA_dictInsert_ne _ _ _ _ (Ne.symm hne)]; exact hf2)]
  constructor
  · simp
  · simp

theorem reachInv_done_linearized (hashFn : Nat → Nat) (c1 c2 : AddCall)
    (s0 : PhotoMemoryStorage) (cfg : Config)
    (hr : ReachInv hashFn c1 c2 s0 cfg) (r1 r2 : String × Bool)
    (h1 : cfg.pc1 = .done r1) (h2 : cfg.pc2 = .done r2) :
    (r1 = (addCallAtomic hashFn s0 c1).1 ∧
      r2 = (addCallAtomic hashFn (addCallAtomic hashFn s0 c1).2 c2).1 ∧
      cfg.store = (addCallAtomic hashFn (addCallAtomic hashFn s0 c1).2 c2).2) ∨
    (r1 = (addCallAtomic hashFn (addCallAtomic hashFn s0 c2).2 c1).1 ∧
      r2 = (addCallAtomic hashFn s0 c2).1 ∧
      cfg.store = (addCallAtomic hashFn (addCallAtomic hashFn s0 c2).2 c1).2) := by
  cases hr with
  | init => replace h1 : TPc.start = .done r1 := h1; cases h1
  | cs1 cfg h =>
    obtain ⟨pc, st, hin, rfl⟩ := h
    replace h1 : pc = .done r1 := h1
    subst h1
    exact hin.elim
  | cs2 cfg h =>
    obtain ⟨pc, st, hin, rfl⟩ := h
    replace h1 : TPc.start = .done r1 := h1
    cases h1
  | done1 => replace h2 : TPc.start = .done r2 := h2; cases h2
  | done2 => replace h1 : TPc.start = .done r1 := h1; cases h1
  | cs21 cfg h =>
    obtain ⟨pc, st, hin, rfl⟩ := h
    replace h2 : pc = .done r2 := h2
    subst h2
    exact hin.elim
  | cs12 cfg h =>
    obtain ⟨pc, st, hin, rfl⟩ := h
    replace h1 : pc = .done r1 := h1
    subst h1
    exact hin.elim
  | done12 =>
    replace h1 : TPc.done (addCallAtomic hashFn s0 c1).1 = .done r1 := h1
    replace h2 : TPc.done
      (addCallAtomic hashFn (addCallAtomic hashFn s0 c1).2 c2).1 =
        .done r2 := h2
    cases h1
    cases h2
    exact Or.inl ⟨rfl, rfl, rfl⟩
  | done21 =>
    replace h1 : TPc.done
      (addCallAtomic hashFn (addCallAtomic hashFn s0 c2).2 c1).1 =
        .done r1 := h1
    replace h2 : TPc.done (addCallAtomic hashFn s0 c2).1 = .done r2 := h2
    cases h1
    cases h2
    exact Or.inr ⟨rfl, rfl, rfl⟩

/-- C9 (add-photo atomicity): for two concurrent `add_photo` callers under
any scheduler, if both calls complete then the final store and both results
are exactly those of running the two calls sequentially in one of the two
orders (the microsteps never interleave thanks to the lock); consequently
callers with the same content hash receive the same name, and two fresh
distinct-hash calls both get their name enqueued — no queue entry is lost. -/
theorem c9_add_photo_atomic (hashFn : Nat → Nat) (c1 c2 : AddCall)
    (s0 : PhotoMemoryStorage) (sched : List Bool) (r1 r2 : String × Bool)
    (h1 : (execSched hashFn c1 c2 (initConfig s0) sched).pc1 = .done r1)
    (h2 : (execSched hashFn c1 c2 (initConfig s0) sched).pc2 = .done r2) :
    ((r1 = (addCallAtomic hashFn s0 c1).1 ∧
      r2 = (addCallAtomic hashFn (addCallAtomic hashFn s0 c1).2 c2).1 ∧
      (execSched hashFn c1 c2 (initConfig s0) sched).store =
        (addCallAtomic hashFn (addCallAtomic hashFn s0 c1).2 c2).2) ∨
     (r1 = (addCallAtomic hashFn (addCallAtomic hashFn s0 c2).2 c1).1 ∧
      r2 = (addCallAtomic hashFn s0 c2).1 ∧
      (execSched hashFn c1 c2 (initConfig s0) sched).store =
        (addCallAtomic hashFn (addCallAtomic hashFn s0 c2).2 c1).2)) ∧
    (hashFn c1.image = hashFn c2.image → r1.1 = r2.1) ∧
    ((hashFn c1.image ≠ hashFn c2.image ∧
      findA (hashFn c1.image) s0.hash_to_name = none ∧
      findA (hashFn c2.image) s0.hash_to_name = none) →
      r1.1 ∈ (execSched hashFn c1 c2 (initConfig s0) sched).store.photo_queue ∧
      r2.1 ∈ (execSched hashFn c1 c2 (initConfig s0) sched).store.photo_queue) := by
  have hreach := reachInv_exec hashFn c1 c2 s0 sched
  have hmain : (r1 = (addCallAtomic hashFn s0 c1).1 ∧
      r2 = (addCallAtomic hashFn (addCallAtomic hashFn s0 c1).2 c2).1 ∧
      (execSched hashFn c1 c2 (initConfig s0) sched).store =
        (addCallAtomic hashFn (addCallAtomic hashFn s0 c1).2 c2).2) ∨
     (r1 = (addCallAtomic hashFn (addCallAtomic hashFn s0 c2).2 c1).1 ∧
      r2 = (addCallAtomic hashFn s0 c2).1 ∧
      (execSched hashFn c1 c2 (initConfig s0) sched).store =
        (addCallAtomic hashFn (addCallAtomic hashFn s0 c2).2 c1).2) :=
    reachInv_done_linearized hashFn c1 c2 s0 _ hreach r1 r2 h1 h2
  refine ⟨hmain, ?_, ?_⟩
  · intro hsame
    rcases hmain with ⟨e1, e2, _⟩ | ⟨e1, e2, _⟩
    · rw [e1, e2, addCallAtomic_seq_same_name hashFn s0 c1 c2 hsame]
    · rw [e1, e2, addCallAtomic_seq_same_name hashFn s0 c2 c1 hsame.symm]
  · rintro ⟨hne, hfa, hfb⟩
    rcases hmain with ⟨e1, e2, e3⟩ | ⟨e1, e2, e3⟩
    · obtain ⟨m1, m2⟩ := addCallAtomic_seq_queue hashFn s0 c1 c2 hne hfa hfb
      rw [e1, e2, e3]
      exact ⟨m1, m2⟩
    · obtain ⟨m1, m2⟩ :=
        addCallAtomic_seq_queue hashFn s0 c2 c1 (Ne.symm hne) hfb hfa
      rw [e1, e2, e3]
      exact ⟨m2, m1⟩

/-- Witness for C9: an interleaved scheduler (the second caller repeatedly
attempts to acquire the lock while the first is inside its critical
section) on two distinct fresh images. -/
theorem c9_add_photo_atomic_witness :
    ((execSched (fun n => n) ⟨0, "a", none⟩ ⟨1, "b", none⟩
        (initConfig initStorage)
        ([false, true, false, true, false, false, true, false, false, false]
          ++ List.replicate 7 true)).pc1 = .done ("image_0", true) ∧
      (execSched (fun n => n) ⟨0, "a", none⟩ ⟨1, "b", none⟩
        (initConfig initStorage)
        ([false, true, false, true, false, false, true, false, false, false]
          ++ List.replicate 7 true)).pc2 = .done ("image_1", true)) ∧
    ((((("image_0", true) : String × Bool) =
        (addCallAtomic (fun n => n) initStorage ⟨0, "a", none⟩).1 ∧
      (("image_1", true) : String × Bool) =
        (addCallAtomic (fun n => n)
          (addCallAtomic (fun n => n) initStorage ⟨0, "a", none⟩).2
          ⟨1, "b", none⟩).1 ∧
      (execSched (fun n => n) ⟨0, "a", none⟩ ⟨1, "b", none⟩
        (initConfig initStorage)
        ([false, true, false, true, false, false, true, false, false, false]
          ++ List.replicate 7 true)).store =
        (addCallAtomic (fun n => n)
          (addCallAtomic (fun n => n) initStorage ⟨0, "a", none⟩).2
          ⟨1, "b", none⟩).2) ∨
     ((("image_0", true) : String × Bool) =
        (addCallAtomic (fun n => n)
          (addCallAtomic (fun n => n) initStorage ⟨1, "b", none⟩).2
          ⟨0, "a", none⟩).1 ∧
      (("image_1", true) : String × Bool) =
        (addCallAtomic (fun n => n) initStorage ⟨1, "b", none⟩).1 ∧
      (execSched (fun n => n) ⟨0, "a", none⟩ ⟨1, "b", none⟩
        (initConfig initStorage)
        ([false, true, false, true, false, false, true, false, false, false]
          ++ List.replicate 7 true)).store =
        (addCallAtomic (fun n => n)
          (addCallAtomic (fun n => n) initStorage ⟨1, "b", none⟩).2
          ⟨0, "a", none⟩).2)) ∧
    ((fun n => n) (AddCall.mk 0 "a" none).image =
        (fun n => n) (AddCall.mk 1 "b" none).image →
      (("image_0", true) : String × Bool).1 =
        (("image_1", true) : String × Bool).1) ∧
    (((fun n => n) (AddCall.mk 0 "a" none).image ≠
        (fun n => n) (AddCall.mk 1 "b" none).image ∧
      findA ((fun n => n) (AddCall.mk 0 "a" none).image)
        initStorage.hash_to_name = none ∧
      findA ((fun n => n) (AddCall.mk 1 "b" none).image)
        initStorage.hash_to_name = none) →
      (("image_0", true) : String × Bool).1 ∈
        (execSched (fun n => n) ⟨0, "a", none⟩ ⟨1, "b", none⟩
          (initConfig initStorage)
          ([false, true, false, true, false, false, true, false, false,
            false] ++ List.replicate 7 true)).store.photo_queue ∧
      (("image_1", true) : String × Bool).1 ∈
        (execSched (fun n => n) ⟨0, "a", none⟩ ⟨1, "b", none⟩
          (initConfig initStorage)
          ([false, true, false, true, false, false, true, false, false,
            false] ++ List.replicate 7 true)).store.photo_queue)) :=
  ⟨⟨rfl, rfl⟩,
    c9_add_photo_atomic (fun n => n) ⟨0, "a", none⟩ ⟨1, "b", none⟩
      initStorage
      ([false, true, false, true, false, false, true, false, false, false]
        ++ List.replicate 7 true)
      ("image_0", true) ("image_1", true) rfl rfl⟩
